import Mathlib

/-!
Verification development for the video ingestion and playback controller
of the repository (src/app.py: class VideoProcessor, and
src/yolo_asf_processor.py: YOLOASFProcessor.open_video).

Modelling conventions for the shallow embedding:
* A capture handle is a pair (frames, pos): `frames` is the number of
  frames the opened source can actually decode, `pos` the current stream
  position.  `read`/`grab` succeed exactly when `pos < frames` and advance
  `pos`; `rewind` models `cap.set(cv2.CAP_PROP_POS_FRAMES, 0)`.
* Python floats are modelled as exact fractions (`Frac`, an integer
  numerator over a natural denominator); Python `int(x)` on a nonnegative
  value is the floor.  Python string prefix/suffix tests are modelled on
  the character lists of the strings.
* The progress computation `int((frame_count / total_frames) * 100)`
  (src/app.py line 292) is carried out by CPython in IEEE binary64
  arithmetic.  `pyProgress` reproduces it bit-exactly for the values that
  occur: the exact quotient is rounded to the nearest double (53-bit
  significand, round half to even — `roundDouble`), the product of that
  double with 100 is rounded the same way, and the result is truncated
  toward zero.  All occurring values are strictly positive, normal and
  far below the overflow threshold, so neither subnormals nor infinities
  need to be modelled.  This rounding matters: at frame 29 of a 100-frame
  file the double computation yields 28 where exact rational arithmetic
  would give 29.
* Qt signal emissions become elements of an event trace; `frame_ready`,
  `count_updated` and the matching `progress_updated` of one loop
  iteration are bundled into a single `frameOut` event (no other emission
  can occur between them in the source).
* The cross-thread stop flag (`self.running`) is modelled by an optional
  iteration number `stopAt` at which the flag is observed false; `paused`
  is modelled as permanently false (no claim concerns pausing).
* An exception raised by `process_frame` (the frame consumer) is modelled
  by the consumer function returning `false` for the given frame id; the
  enclosing `try`/`except` of `run` is modelled by the `.excepted`
  outcome.
-/

/-- Exact fraction: the model of a Python float.  Operations keep the
denominator positive; no reduction to lowest terms is performed. -/
structure Frac where
  num : Int
  den : Nat
deriving DecidableEq

/-- The float value of an integer literal. -/
def Frac.ofInt (n : Int) : Frac := ⟨n, 1⟩

/-- Comparison a ≤ b of two fractions with positive denominators. -/
def Frac.ble (a b : Frac) : Bool := a.num * (b.den : Int) ≤ b.num * (a.den : Int)

/-- Comparison a < b of two fractions with positive denominators. -/
def Frac.blt (a b : Frac) : Bool := a.num * (b.den : Int) < b.num * (a.den : Int)

/-- Addition. -/
def Frac.add (a b : Frac) : Frac := ⟨a.num * b.den + b.num * a.den, a.den * b.den⟩

/-- Subtraction. -/
def Frac.sub (a b : Frac) : Frac := ⟨a.num * b.den - b.num * a.den, a.den * b.den⟩

/-- Multiplication. -/
def Frac.mul (a b : Frac) : Frac := ⟨a.num * b.num, a.den * b.den⟩

/-- Reciprocal (only applied to nonzero values in the model). -/
def Frac.inv (a : Frac) : Frac :=
  if 0 ≤ a.num then ⟨(a.den : Int), a.num.toNat⟩ else ⟨-(a.den : Int), a.num.natAbs⟩

/-- Division. -/
def Frac.div (a b : Frac) : Frac := a.mul b.inv

/-- Python `max(a, b)`: keeps `a` unless `b` is strictly greater. -/
def Frac.pymax (a b : Frac) : Frac := if Frac.blt a b then b else a

/-- Python `int(x)`: truncation toward zero. -/
def pyTrunc (q : Frac) : Int :=
  if 0 ≤ q.num then q.num.fdiv q.den else -((-q.num).fdiv q.den)

/-- Floor of the base-2 logarithm of `n` (0 for `n < 2`), computed with a
fuel argument so that the kernel can evaluate it; callers pass `n` itself
as fuel, which always suffices. -/
def natLog2 : Nat → Nat → Nat
  | 0, _ => 0
  | fuel + 1, n => if n < 2 then 0 else natLog2 fuel (n / 2) + 1

/-- Floor of the base-2 logarithm of the positive rational `n / d`
(possibly negative).  The difference of the integer logarithms is either
the answer or one too large; the comparison of `n / d` with `2 ^ e`
decides which. -/
def floorLog2Pair (n d : Nat) : Int :=
  let e : Int := (natLog2 n n : Int) - (natLog2 d d : Int)
  if 0 ≤ e then (if d * 2 ^ e.toNat ≤ n then e else e - 1)
  else (if d ≤ n * 2 ^ (-e).toNat then e else e - 1)

/-- Round the rational `a / b` (with `b > 0`) to the nearest integer,
ties to the even neighbour — the IEEE round-to-nearest-even rule applied
to a scaled significand. -/
def roundHalfEven (a b : Nat) : Nat :=
  let q := a / b
  let r := a % b
  if 2 * r < b then q
  else if b < 2 * r then q + 1
  else if q % 2 = 0 then q else q + 1

/-- Round an exact nonnegative rational to the nearest IEEE binary64
value (normal range): scale it so that its significand occupies 53 bits,
round half to even, and scale back.  A significand that rounds up to
`2 ^ 53` is still exact at the widened exponent, so no renormalisation
step is needed. -/
def roundDouble (x : Frac) : Frac :=
  if x.num ≤ 0 then Frac.ofInt 0
  else
    let n := x.num.toNat
    let s : Int := 52 - floorLog2Pair n x.den
    let sig := roundHalfEven (n * 2 ^ s.toNat) (x.den * 2 ^ (-s).toNat)
    if 0 ≤ s then ⟨(sig : Int), 2 ^ s.toNat⟩ else ⟨(sig : Int) * (2 ^ (-s).toNat : Int), 1⟩

/-- The progress value `int((frame_count / total_frames) * 100)` of
src/app.py line 292, computed as CPython does: the true division
`frame_count / total_frames` produces the correctly rounded double of the
quotient, the multiplication by 100 rounds again, and `int` truncates. -/
def pyProgress (fc total : Nat) : Nat :=
  (pyTrunc (roundDouble ((roundDouble ⟨(fc : Int), total⟩).mul (Frac.ofInt 100)))).toNat

/-- Python `s.startswith(pre)`: prefix test on the character sequence. -/
def pyStartsWith (s pre : String) : Bool := pre.data.isPrefixOf s.data

/-- Python `s.lower().endswith(suf)` for a lowercase literal `suf`. -/
def pyLowerEndsWith (s suf : String) : Bool :=
  suf.data.isSuffixOf (s.data.map Char.toLower)

/-- A playback source identifier: the Python code receives either a string
(path, URL, device token) or an integer device index. -/
inductive SourceId where
  | str (s : String)
  | intId (n : Int)
deriving DecidableEq

/-- Embedding of `VideoProcessor._is_live_stream` (src/app.py lines
316-321).  For a string the code tests the four network scheme prefixes,
then `video_path.startswith('0')`, then `video_path == 0`; in Python a
`str` never equals the int `0`, so that last disjunct is the literal
`false` here.  A non-string identifier falls through to `return False`. -/
def is_live_stream : SourceId → Bool
  | .str s =>
      (pyStartsWith s "rtsp://" || pyStartsWith s "http://" ||
        pyStartsWith s "https://" || pyStartsWith s "rtmp://") ||
      pyStartsWith s "0" || false
  | .intId _ => false

/-- Embedding of `VideoProcessor._is_asf_file` (src/app.py lines 323-327):
lowercased suffix test for the legacy container extensions. -/
def is_asf_file : SourceId → Bool
  | .str s => pyLowerEndsWith s ".asf" || pyLowerEndsWith s ".wmv"
  | .intId _ => false

/-- Model of an OpenCV capture handle: `frames` frames are decodable, and
the handle is at stream position `pos`. -/
structure Capture where
  frames : Nat
  pos : Nat
deriving DecidableEq

/-- `cap.read()`: succeeds (returning the frame id, i.e. the position)
and advances the position exactly when a frame is left. -/
def Capture.read (c : Capture) : Option Nat × Capture :=
  if c.pos < c.frames then (some c.pos, ⟨c.frames, c.pos + 1⟩) else (none, c)

/-- `cap.grab()`: advances the position without decoding; same success
condition as `read`. -/
def Capture.grab (c : Capture) : Bool × Capture :=
  if c.pos < c.frames then (true, ⟨c.frames, c.pos + 1⟩) else (false, c)

/-- `cap.set(cv2.CAP_PROP_POS_FRAMES, 0)`. -/
def Capture.rewind (c : Capture) : Capture := ⟨c.frames, 0⟩

/-- The error messages `VideoProcessor.run` can emit through
`error_occurred`. -/
inductive ErrMsg where
  | cannotOpen
  | cannotReadFirst
  | lostConnection
  | endOfFile
  | processingError
deriving DecidableEq

/-- The literal message strings of src/app.py for each error case. -/
def ErrMsg.text : ErrMsg → String
  | .cannotOpen => "Cannot open video"
  | .cannotReadFirst => "Cannot read first frame from video"
  | .lostConnection => "Lost connection to live stream"
  | .endOfFile => "End of video file reached"
  | .processingError => "Processing error"

/-- One element of the emission trace of a run.  `frameOut` bundles the
`frame_ready`/`count_updated` emission for source frame `frameId` with the
`progress_updated` value `progress` of the same iteration;  `frameIndex`
is the value of `frame_count` after this iteration's increment. -/
inductive Event where
  | frameOut (frameId frameIndex progress : Nat)
  | progressComplete
  | backoff (ms : Nat)
  | paceSleep (ms : Nat)
  | errorEv (m : ErrMsg)
  | released
  | finished
deriving DecidableEq

/-- Worker-loop state: the capture handle, `frame_count`,
`consecutive_failures`, `_skip_residual` and the iteration counter used
to model the asynchronous stop flag. -/
structure LoopSt where
  cap : Capture
  frameCount : Nat
  fails : Nat
  residual : Frac
  iter : Nat
deriving DecidableEq

/-- How the worker loop ended. -/
inductive Outcome where
  | broke
  | stopped
  | excepted
  | openFailed
  | noFirstFrame
  | fuelOut
deriving DecidableEq

/-- Run configuration fixed before the loop: liveness classification,
clamped playback speed, normalised total frame count and fps, the frame
consumer (`process_frame`; `false` models a raised exception) and the
modelled stop instant. -/
structure Cfg where
  isLive : Bool
  speed : Frac
  total : Int
  fps : Frac
  consumer : Nat → Bool
  stopAt : Option Nat

/-- `max_failures = 30` (src/app.py line 240). -/
def maxFailures : Nat := 30

/-- The stop flag `self.running` read at the top of the while loop:
false from iteration `k` on when `stopAt = some k`. -/
def stopNow (stopAt : Option Nat) (iter : Nat) : Bool :=
  match stopAt with
  | some k => k ≤ iter
  | none => false

/-- The pacing sleep of one successful iteration (src/app.py lines
299-308): live sources throttle a 33ms baseline by the speed, files use
the frame interval `1000 / fps` (33ms if fps is not positive). -/
def stepSleepMs (isLive : Bool) (speed fps : Frac) : Nat :=
  if isLive then max 1 (pyTrunc ((Frac.ofInt 33).div speed)).toNat
  else
    let frameMs : Frac :=
      if Frac.blt (Frac.ofInt 0) fps then (Frac.ofInt 1000).div fps else Frac.ofInt 33
    max 1 (pyTrunc (frameMs.div speed)).toNat

/-- The frame-skip inner loop (src/app.py lines 281-287): while the
residual is at least one, grab a frame; a failed grab ends skipping.
Returns (skipped count, new residual, new capture, grab failed?).  The
fuel argument only bounds the recursion; callers pass `frames + 1`,
which is never exhausted because a grab at the end of the stream fails. -/
def skipRun : Nat → Frac → Capture → Nat × Frac × Capture × Bool
  | 0, r, c => (0, r, c, false)
  | fuel + 1, r, c =>
    if Frac.ble (Frac.ofInt 1) r then
      match c.grab with
      | (false, c') => (0, r, c', true)
      | (true, c') =>
        let out := skipRun fuel (r.sub (Frac.ofInt 1)) c'
        (out.1 + 1, out.2.1, out.2.2.1, out.2.2.2)
    else (0, r, c, false)

/-- The worker while-loop of `VideoProcessor.run` (src/app.py lines
242-308), returning the emitted events, the way the loop ended and the
final state.  Each recursive call consumes one unit of fuel; `runProc`
supplies enough fuel for the loop to always reach its exit. -/
def loopRun (cfg : Cfg) : Nat → LoopSt → List Event × Outcome × LoopSt
  | 0, s => ([], .fuelOut, s)
  | fuel + 1, s =>
    if stopNow cfg.stopAt s.iter then ([], .stopped, s)
    else
      match s.cap.read with
      | (none, c') =>
        let f' := s.fails + 1
        if maxFailures ≤ f' then
          ([Event.errorEv (if cfg.isLive then .lostConnection else .endOfFile)],
            .broke, { s with cap := c', fails := f' })
        else
          let r := loopRun cfg fuel { s with cap := c', fails := f', iter := s.iter + 1 }
          (Event.backoff 100 :: r.1, r.2)
      | (some fid, c') =>
        if cfg.consumer fid = false then ([], .excepted, { s with cap := c' })
        else
          let sk :=
            if ¬cfg.isLive ∧ Frac.blt (Frac.ofInt 1) cfg.speed then
              skipRun (c'.frames + 1) (s.residual.add (cfg.speed.sub (Frac.ofInt 1))) c'
            else (0, s.residual, c', false)
          let fc' := s.frameCount + 1 + sk.1
          let frameEvs :=
            if 0 < cfg.total then
              let p := pyProgress fc' cfg.total.toNat
              Event.frameOut fid fc' p ::
                (if 100 ≤ p then [Event.progressComplete] else [])
            else [Event.frameOut fid fc' 50]
          let r := loopRun cfg fuel
            { cap := sk.2.2.1, frameCount := fc',
              fails := if sk.2.2.2 then 1 else 0,
              residual := sk.2.1, iter := s.iter + 1 }
          (frameEvs ++ [Event.paceSleep (stepSleepMs cfg.isLive cfg.speed cfg.fps)] ++ r.1,
            r.2)

/-- `fps = cap.get(cv2.CAP_PROP_FPS) or 30` (src/app.py line 213):
Python `or` substitutes 30 exactly when the reported value is falsy,
i.e. equal to 0. -/
def normFps (reported : Frac) : Frac :=
  if reported.num = 0 then Frac.ofInt 30 else reported

/-- Lines 212 and 216-217 of src/app.py: the reported frame count, with
the sentinel -1 substituted when it is not positive. -/
def normTotal (reported : Int) : Int := if reported ≤ 0 then -1 else reported

/-- Fuel that provably always suffices for `loopRun`. -/
def FUEL (frames : Nat) : Nat := 31 * frames + 31

/-- Result of a whole run: emission trace, outcome, final loop state. -/
structure RunOut where
  events : List Event
  outcome : Outcome
  final : LoopSt
deriving DecidableEq

/-- Embedding of `VideoProcessor.run` from the point where the capture
has been constructed (src/app.py lines 207-314): the isOpened check, the
property reads, the first-frame read for dimensions, the conditional
rewind, the worker loop, and the `cap.release()` / `finished_processing`
emissions after the loop.  The trailing `except` clause emits a
processing error and ends the thread without releasing the capture. -/
def runProc (isLive : Bool) (openOk : Bool) (frames : Nat) (reportedFps : Frac)
    (reportedTotal : Int) (speed0 : Frac) (consumer : Nat → Bool)
    (stopAt : Option Nat) : RunOut :=
  if openOk = false then
    ⟨[Event.errorEv .cannotOpen], .openFailed, ⟨⟨frames, 0⟩, 0, 0, Frac.ofInt 0, 0⟩⟩
  else
    let total := normTotal reportedTotal
    let fps := normFps reportedFps
    let cap0 : Capture := ⟨frames, 0⟩
    match cap0.read with
    | (none, c1) =>
      ⟨[Event.errorEv .cannotReadFirst], .noFirstFrame, ⟨c1, 0, 0, Frac.ofInt 0, 0⟩⟩
    | (some _, c1) =>
      let c2 := if ¬isLive ∧ 0 < total then c1.rewind else c1
      let speed := Frac.pymax ⟨1, 10⟩ speed0
      let cfg : Cfg := ⟨isLive, speed, total, fps, consumer, stopAt⟩
      let r := loopRun cfg (FUEL frames) ⟨c2, 0, 0, Frac.ofInt 0, 0⟩
      match r.2.1 with
      | .broke => ⟨r.1 ++ [Event.released, Event.finished], .broke, r.2.2⟩
      | .stopped => ⟨r.1 ++ [Event.released, Event.finished], .stopped, r.2.2⟩
      | .excepted => ⟨r.1 ++ [Event.errorEv .processingError], .excepted, r.2.2⟩
      | o => ⟨r.1, o, r.2.2⟩

/-- The capture backend identifiers tried by the ASF branch of
`VideoProcessor.run` (src/app.py line 170) and the plain default
constructor used as the final fallback. -/
inductive BackendId where
  | ffmpeg
  | dshow
  | anyBackend
  | defaultBackend
deriving DecidableEq

/-- Behaviour of one backend on the given source: does
`cv2.VideoCapture(path, backend)` report `isOpened`, and does the
one-frame read probe then return a frame? -/
structure BackendProbe where
  opens : Bool
  readOk : Bool
deriving DecidableEq

/-- The backend for-loop of src/app.py lines 172-189 (identical in
src/yolo_asf_processor.py lines 85-102) over an arbitrary candidate
list: open the candidate; if it opens, probe one read; accept on probe
success (breaking out of the loop), otherwise release the handle and go
on.  Returns (accepted backend, candidates tried in order, handles
released in order). -/
def tryBackends (env : BackendId → BackendProbe) :
    List BackendId → Option BackendId × List BackendId × List BackendId
  | [] => (none, [], [])
  | b :: rest =>
    if (env b).opens then
      if (env b).readOk then (some b, [b], [])
      else
        let r := tryBackends env rest
        (r.1, b :: r.2.1, b :: r.2.2)
    else
      let r := tryBackends env rest
      (r.1, b :: r.2.1, r.2.2)

/-- Overall negotiation result: a candidate was accepted, or the plain
default capture (no explicit backend) was used as fallback, or even the
fallback failed to open (the run then errors out at the isOpened
check). -/
inductive NegResult where
  | accepted (b : BackendId)
  | fallback
  | failed
deriving DecidableEq

/-- The fixed candidate order of src/app.py line 170:
`[cv2.CAP_FFMPEG, cv2.CAP_DSHOW, cv2.CAP_ANY]`. -/
def asfBackends : List BackendId := [.ffmpeg, .dshow, .anyBackend]

/-- ASF capture negotiation (src/app.py lines 167-203): run the backend
loop; if no candidate was accepted, fall back once to the plain default
capture, whose `isOpened` decides between `fallback` and `failed`. -/
def negotiateASF (env : BackendId → BackendProbe) :
    NegResult × List BackendId × List BackendId :=
  let r := tryBackends env asfBackends
  match r.1 with
  | some b => (.accepted b, r.2.1, r.2.2)
  | none =>
    if (env .defaultBackend).opens then (.fallback, r.2.1, r.2.2)
    else (.failed, r.2.1, r.2.2)

/-- Is an event a frame dispatch? -/
def isFrameOut : Event → Bool
  | .frameOut _ _ _ => true
  | _ => false

/-- The progress value carried by a frame dispatch. -/
def progOf : Event → Option Nat
  | .frameOut _ _ p => some p
  | _ => none

/-- The progress values of the frame dispatches of a trace, in order. -/
def progVals (l : List Event) : List Nat := l.filterMap progOf

/-- The number of error emissions in a trace. -/
def errCount (l : List Event) : Nat :=
  l.countP fun e => match e with | .errorEv _ => true | _ => false

/-- Does a frame dispatch carry a progress value of at least 100?  In the
source (src/app.py lines 294-297) `progress_completed` fires exactly when
the just-emitted progress value is `>= 100`. -/
def isHundred : Event → Bool
  | .frameOut _ _ p => decide (100 ≤ p)
  | _ => false

/-- Boolean test that a list of naturals is non-decreasing. -/
def monoNat : List Nat → Bool
  | [] => true
  | [_] => true
  | a :: b :: t => decide (a ≤ b) && monoNat (b :: t)

lemma capture_read_lt {c : Capture} (h : c.pos < c.frames) :
    c.read = (some c.pos, ⟨c.frames, c.pos + 1⟩) := by
  simp [Capture.read, h]

lemma capture_read_ge {c : Capture} (h : c.frames ≤ c.pos) :
    c.read = (none, c) := by
  simp [Capture.read, Nat.not_lt.mpr h]

lemma loopRun_stop (cfg : Cfg) (fuel : Nat) (s : LoopSt)
    (h : stopNow cfg.stopAt s.iter = true) :
    loopRun cfg (fuel + 1) s = ([], .stopped, s) := by
  simp [loopRun, h]

lemma loopRun_fail_break (cfg : Cfg) (fuel : Nat) (s : LoopSt)
    (h1 : stopNow cfg.stopAt s.iter = false) (h2 : s.cap.frames ≤ s.cap.pos)
    (h3 : maxFailures ≤ s.fails + 1) :
    loopRun cfg (fuel + 1) s =
      ([Event.errorEv (if cfg.isLive then .lostConnection else .endOfFile)],
        .broke, { s with fails := s.fails + 1 }) := by
  simp [loopRun, h1, capture_read_ge h2, h3]

lemma loopRun_fail_retry (cfg : Cfg) (fuel : Nat) (s : LoopSt)
    (h1 : stopNow cfg.stopAt s.iter = false) (h2 : s.cap.frames ≤ s.cap.pos)
    (h3 : s.fails + 1 < maxFailures) :
    loopRun cfg (fuel + 1) s =
      (Event.backoff 100 ::
          (loopRun cfg fuel { s with fails := s.fails + 1, iter := s.iter + 1 }).1,
        (loopRun cfg fuel { s with fails := s.fails + 1, iter := s.iter + 1 }).2) := by
  simp [loopRun, h1, capture_read_ge h2, Nat.not_le.mpr h3]

lemma loopRun_except (cfg : Cfg) (fuel : Nat) (s : LoopSt)
    (h1 : stopNow cfg.stopAt s.iter = false) (h2 : s.cap.pos < s.cap.frames)
    (h3 : cfg.consumer s.cap.pos = false) :
    loopRun cfg (fuel + 1) s =
      ([], .excepted, { s with cap := ⟨s.cap.frames, s.cap.pos + 1⟩ }) := by
  simp [loopRun, h1, capture_read_lt h2, h3]

lemma loopRun_success (cfg : Cfg) (fuel : Nat) (s : LoopSt)
    (h1 : stopNow cfg.stopAt s.iter = false) (h2 : s.cap.pos < s.cap.frames)
    (h3 : cfg.consumer s.cap.pos = true) :
    loopRun cfg (fuel + 1) s =
      (let sk :=
        if ¬cfg.isLive ∧ Frac.blt (Frac.ofInt 1) cfg.speed then
          skipRun (s.cap.frames + 1) (s.residual.add (cfg.speed.sub (Frac.ofInt 1)))
            ⟨s.cap.frames, s.cap.pos + 1⟩
        else (0, s.residual, ⟨s.cap.frames, s.cap.pos + 1⟩, false)
       let fc' := s.frameCount + 1 + sk.1
       let frameEvs :=
        if 0 < cfg.total then
          Event.frameOut s.cap.pos fc' (pyProgress fc' cfg.total.toNat) ::
            (if 100 ≤ pyProgress fc' cfg.total.toNat then [Event.progressComplete] else [])
        else [Event.frameOut s.cap.pos fc' 50]
       let r := loopRun cfg fuel
        { cap := sk.2.2.1, frameCount := fc', fails := if sk.2.2.2 then 1 else 0,
          residual := sk.2.1, iter := s.iter + 1 }
       (frameEvs ++ [Event.paceSleep (stepSleepMs cfg.isLive cfg.speed cfg.fps)] ++ r.1,
        r.2)) := by
  simp [loopRun, h1, capture_read_lt h2, h3]

lemma skipRun_cap : ∀ (fuel : Nat) (r : Frac) (c : Capture),
    (skipRun fuel r c).2.2.1 = ⟨c.frames, c.pos + (skipRun fuel r c).1⟩ ∧
    (c.pos ≤ c.frames → c.pos + (skipRun fuel r c).1 ≤ c.frames) := by
  intro fuel
  induction fuel with
  | zero => intro r c; simp [skipRun]
  | succ n ih =>
    intro r c
    by_cases hb : Frac.ble (Frac.ofInt 1) r = true
    · by_cases hg : c.pos < c.frames
      · have hgrab : c.grab = (true, ⟨c.frames, c.pos + 1⟩) := by simp [Capture.grab, hg]
        have h := ih (r.sub (Frac.ofInt 1)) ⟨c.frames, c.pos + 1⟩
        simp only [skipRun, hb, if_true, hgrab]
        refine ⟨by rw [h.1]; simp; omega, ?_⟩
        intro _
        have := h.2 (by simp; omega)
        simp at this ⊢
        omega
      · have hgrab : c.grab = (false, c) := by simp [Capture.grab, hg]
        simp [skipRun, hb, hgrab]
    · simp [skipRun, hb]


lemma loopRun_success_shape (cfg : Cfg) (fuel : Nat) (s : LoopSt)
    (h1 : stopNow cfg.stopAt s.iter = false) (h2 : s.cap.pos < s.cap.frames)
    (h3 : cfg.consumer s.cap.pos = true) :
    ∃ (k kf : Nat) (rs : Frac),
      kf ≤ 1 ∧ s.cap.pos + 1 + k ≤ s.cap.frames ∧
      loopRun cfg (fuel + 1) s =
        ((if 0 < cfg.total then
            Event.frameOut s.cap.pos (s.frameCount + 1 + k)
                (pyProgress (s.frameCount + 1 + k) cfg.total.toNat) ::
              (if 100 ≤ pyProgress (s.frameCount + 1 + k) cfg.total.toNat then
                [Event.progressComplete] else [])
          else [Event.frameOut s.cap.pos (s.frameCount + 1 + k) 50]) ++
          Event.paceSleep (stepSleepMs cfg.isLive cfg.speed cfg.fps) ::
          (loopRun cfg fuel ⟨⟨s.cap.frames, s.cap.pos + 1 + k⟩, s.frameCount + 1 + k, kf, rs,
            s.iter + 1⟩).1,
         (loopRun cfg fuel ⟨⟨s.cap.frames, s.cap.pos + 1 + k⟩, s.frameCount + 1 + k, kf, rs,
            s.iter + 1⟩).2) := by
  have hstep := loopRun_success cfg fuel s h1 h2 h3
  by_cases hsk : (cfg.isLive = false ∧ Frac.blt (Frac.ofInt 1) cfg.speed = true)
  · obtain ⟨k, rs, c2, gf, hX⟩ :
        ∃ k rs c2 gf,
          skipRun (s.cap.frames + 1) (s.residual.add (cfg.speed.sub (Frac.ofInt 1)))
            ⟨s.cap.frames, s.cap.pos + 1⟩ = (k, rs, c2, gf) := ⟨_, _, _, _, rfl⟩
    have hc := skipRun_cap (s.cap.frames + 1)
      (s.residual.add (cfg.speed.sub (Frac.ofInt 1))) ⟨s.cap.frames, s.cap.pos + 1⟩
    rw [hX] at hc
    simp only at hc
    refine ⟨k, if gf then 1 else 0, rs, by split <;> omega, by have := hc.2 (by omega); omega, ?_⟩
    rw [hstep]
    simp only [hsk.1, hsk.2, Bool.not_false, Bool.true_and, reduceIte, hX, hc.1]
    simp [List.append_assoc]
  · refine ⟨0, 0, s.residual, by omega, by omega, ?_⟩
    rw [hstep]
    have hcond : ¬(¬cfg.isLive = true ∧ Frac.blt (Frac.ofInt 1) cfg.speed = true) := by
      intro hcon
      exact hsk ⟨by cases h : cfg.isLive <;> simp_all, hcon.2⟩
    simp only [hcond, reduceIte, if_neg hcond]
    simp [List.append_assoc]

lemma loopRun_mem_kinds : ∀ (fuel : Nat) (cfg : Cfg) (s : LoopSt),
    ∀ e ∈ (loopRun cfg fuel s).1,
      (∃ a b p, e = Event.frameOut a b p) ∨ e = Event.progressComplete ∨
        e = Event.backoff 100 ∨ (∃ m, e = Event.paceSleep m) ∨ (∃ m, e = Event.errorEv m) := by
  intro fuel
  induction fuel with
  | zero => intro cfg s e he; simp [loopRun] at he
  | succ n ih =>
    intro cfg s e he
    cases h1 : stopNow cfg.stopAt s.iter with
    | true => rw [loopRun_stop cfg n s h1] at he; simp at he
    | false =>
      by_cases h2 : s.cap.pos < s.cap.frames
      · cases h3 : cfg.consumer s.cap.pos with
        | false => rw [loopRun_except cfg n s h1 h2 h3] at he; simp at he
        | true =>
          obtain ⟨k, kf, rs, -, -, heq⟩ := loopRun_success_shape cfg n s h1 h2 h3
          rw [heq] at he
          rcases List.mem_append.mp he with hA | hB
          · split at hA
            · rcases List.mem_cons.mp hA with rfl | hA
              · exact Or.inl ⟨_, _, _, rfl⟩
              · split at hA
                · simp at hA; subst hA; exact Or.inr (Or.inl rfl)
                · simp at hA
            · simp at hA; subst hA; exact Or.inl ⟨_, _, _, rfl⟩
          · rcases List.mem_cons.mp hB with rfl | hB
            · exact Or.inr (Or.inr (Or.inr (Or.inl ⟨_, rfl⟩)))
            · exact ih cfg _ e hB
      · replace h2 : s.cap.frames ≤ s.cap.pos := Nat.le_of_not_lt h2
        by_cases h3 : maxFailures ≤ s.fails + 1
        · rw [loopRun_fail_break cfg n s h1 h2 h3] at he
          simp at he; subst he
          exact Or.inr (Or.inr (Or.inr (Or.inr ⟨_, rfl⟩)))
        · replace h3 : s.fails + 1 < maxFailures := Nat.lt_of_not_le h3
          rw [loopRun_fail_retry cfg n s h1 h2 h3] at he
          rcases List.mem_cons.mp he with rfl | he
          · exact Or.inr (Or.inr (Or.inl rfl))
          · exact ih cfg _ e he

lemma loopRun_no_release (fuel : Nat) (cfg : Cfg) (s : LoopSt) :
    Event.released ∉ (loopRun cfg fuel s).1 := by
  intro h
  rcases loopRun_mem_kinds fuel cfg s _ h with ⟨a, b, p, h'⟩ | h' | h' | ⟨m, h'⟩ | ⟨m, h'⟩ <;>
    exact Event.noConfusion h'

lemma loopRun_no_finished (fuel : Nat) (cfg : Cfg) (s : LoopSt) :
    Event.finished ∉ (loopRun cfg fuel s).1 := by
  intro h
  rcases loopRun_mem_kinds fuel cfg s _ h with ⟨a, b, p, h'⟩ | h' | h' | ⟨m, h'⟩ | ⟨m, h'⟩ <;>
    exact Event.noConfusion h'

lemma loopRun_not_excepted : ∀ (fuel : Nat) (cfg : Cfg) (s : LoopSt),
    (∀ n, cfg.consumer n = true) → (loopRun cfg fuel s).2.1 ≠ .excepted := by
  intro fuel
  induction fuel with
  | zero => intro cfg s hc; simp [loopRun]
  | succ n ih =>
    intro cfg s hc
    cases h1 : stopNow cfg.stopAt s.iter with
    | true => rw [loopRun_stop cfg n s h1]; simp
    | false =>
      by_cases h2 : s.cap.pos < s.cap.frames
      · obtain ⟨k, kf, rs, -, -, heq⟩ := loopRun_success_shape cfg n s h1 h2 (hc _)
        rw [heq]
        exact ih cfg _ hc
      · replace h2 : s.cap.frames ≤ s.cap.pos := Nat.le_of_not_lt h2
        by_cases h3 : maxFailures ≤ s.fails + 1
        · rw [loopRun_fail_break cfg n s h1 h2 h3]; simp
        · replace h3 : s.fails + 1 < maxFailures := Nat.lt_of_not_le h3
          rw [loopRun_fail_retry cfg n s h1 h2 h3]
          exact ih cfg _ hc

lemma loopRun_terminates : ∀ (fuel : Nat) (cfg : Cfg) (s : LoopSt),
    s.fails ≤ 29 → s.cap.pos ≤ s.cap.frames →
    31 * (s.cap.frames - s.cap.pos) + (30 - s.fails) ≤ fuel →
    (loopRun cfg fuel s).2.1 = .broke ∨ (loopRun cfg fuel s).2.1 = .stopped ∨
      (loopRun cfg fuel s).2.1 = .excepted := by
  intro fuel
  induction fuel with
  | zero => intro cfg s hf hp hb; omega
  | succ n ih =>
    intro cfg s hf hp hb
    cases h1 : stopNow cfg.stopAt s.iter with
    | true => rw [loopRun_stop cfg n s h1]; simp
    | false =>
      by_cases h2 : s.cap.pos < s.cap.frames
      · cases h3 : cfg.consumer s.cap.pos with
        | false => rw [loopRun_except cfg n s h1 h2 h3]; simp
        | true =>
          obtain ⟨k, kf, rs, hkf, hpos, heq⟩ := loopRun_success_shape cfg n s h1 h2 h3
          rw [heq]
          refine ih cfg _ (by show kf ≤ 29; omega) (by show s.cap.pos + 1 + k ≤ s.cap.frames; omega) ?_
          show 31 * (s.cap.frames - (s.cap.pos + 1 + k)) + (30 - kf) ≤ n
          omega
      · replace h2 : s.cap.frames ≤ s.cap.pos := Nat.le_of_not_lt h2
        by_cases h3 : maxFailures ≤ s.fails + 1
        · rw [loopRun_fail_break cfg n s h1 h2 h3]; simp
        · replace h3 : s.fails + 1 < maxFailures := Nat.lt_of_not_le h3
          rw [loopRun_fail_retry cfg n s h1 h2 h3]
          simp only [maxFailures] at h3
          refine ih cfg _ (by show s.fails + 1 ≤ 29; omega)
            (by show s.cap.pos ≤ s.cap.frames; omega) ?_
          show 31 * (s.cap.frames - s.cap.pos) + (30 - (s.fails + 1)) ≤ n
          omega

lemma stopNow_none (i : Nat) : stopNow none i = false := rfl

lemma errCount_append (l₁ l₂ : List Event) : errCount (l₁ ++ l₂) = errCount l₁ + errCount l₂ :=
  List.countP_append _ _ _

lemma loopRun_broke_shape : ∀ (fuel : Nat) (cfg : Cfg) (s : LoopSt),
    cfg.stopAt = none → (∀ n, cfg.consumer n = true) →
    s.fails ≤ 29 → s.cap.pos ≤ s.cap.frames →
    31 * (s.cap.frames - s.cap.pos) + (30 - s.fails) ≤ fuel →
    ∃ pre,
      (loopRun cfg fuel s).1 =
        pre ++ [Event.errorEv (if cfg.isLive then .lostConnection else .endOfFile)] ∧
      errCount pre = 0 ∧ (loopRun cfg fuel s).2.1 = .broke := by
  intro fuel
  induction fuel with
  | zero => intro cfg s hst hc hf hp hb; omega
  | succ n ih =>
    intro cfg s hst hc hf hp hb
    have h1 : stopNow cfg.stopAt s.iter = false := by rw [hst]; rfl
    by_cases h2 : s.cap.pos < s.cap.frames
    · obtain ⟨k, kf, rs, hkf, hpos, heq⟩ := loopRun_success_shape cfg n s h1 h2 (hc _)
      obtain ⟨pre, hpre, herr, hout⟩ := ih cfg
        ⟨⟨s.cap.frames, s.cap.pos + 1 + k⟩, s.frameCount + 1 + k, kf, rs, s.iter + 1⟩ hst hc
        (by show kf ≤ 29; omega) (by show s.cap.pos + 1 + k ≤ s.cap.frames; omega)
        (by show 31 * (s.cap.frames - (s.cap.pos + 1 + k)) + (30 - kf) ≤ n; omega)
      rw [heq]
      refine ⟨(if 0 < cfg.total then
            Event.frameOut s.cap.pos (s.frameCount + 1 + k)
                (pyProgress (s.frameCount + 1 + k) cfg.total.toNat) ::
              (if 100 ≤ pyProgress (s.frameCount + 1 + k) cfg.total.toNat then
                [Event.progressComplete] else [])
          else [Event.frameOut s.cap.pos (s.frameCount + 1 + k) 50]) ++
          Event.paceSleep (stepSleepMs cfg.isLive cfg.speed cfg.fps) :: pre, ?_, ?_, hout⟩
      · rw [hpre]; simp
      · rw [errCount_append]
        have : errCount (Event.paceSleep (stepSleepMs cfg.isLive cfg.speed cfg.fps) :: pre) =
            errCount pre := by simp [errCount]
        rw [this, herr]
        split
        · split <;> simp [errCount]
        · simp [errCount]
    · replace h2 : s.cap.frames ≤ s.cap.pos := Nat.le_of_not_lt h2
      by_cases h3 : maxFailures ≤ s.fails + 1
      · rw [loopRun_fail_break cfg n s h1 h2 h3]
        exact ⟨[], by simp, by simp [errCount], rfl⟩
      · replace h3 : s.fails + 1 < maxFailures := Nat.lt_of_not_le h3
        rw [loopRun_fail_retry cfg n s h1 h2 h3]
        simp only [maxFailures] at h3
        obtain ⟨pre, hpre, herr, hout⟩ := ih cfg
          { s with fails := s.fails + 1, iter := s.iter + 1 } hst hc
          (by show s.fails + 1 ≤ 29; omega) (by show s.cap.pos ≤ s.cap.frames; omega)
          (by show 31 * (s.cap.frames - s.cap.pos) + (30 - (s.fails + 1)) ≤ n; omega)
        exact ⟨Event.backoff 100 :: pre, by rw [hpre]; simp, by simpa [errCount] using herr, hout⟩

lemma loopRun_progress_formula : ∀ (fuel : Nat) (cfg : Cfg) (s : LoopSt), 0 < cfg.total →
    ∀ a b p, Event.frameOut a b p ∈ (loopRun cfg fuel s).1 →
      p = pyProgress b cfg.total.toNat := by
  intro fuel
  induction fuel with
  | zero => intro cfg s ht a b p he; simp [loopRun] at he
  | succ n ih =>
    intro cfg s ht a b p he
    cases h1 : stopNow cfg.stopAt s.iter with
    | true => rw [loopRun_stop cfg n s h1] at he; simp at he
    | false =>
      by_cases h2 : s.cap.pos < s.cap.frames
      · cases h3 : cfg.consumer s.cap.pos with
        | false => rw [loopRun_except cfg n s h1 h2 h3] at he; simp at he
        | true =>
          obtain ⟨k, kf, rs, -, -, heq⟩ := loopRun_success_shape cfg n s h1 h2 h3
          rw [heq] at he
          rcases List.mem_append.mp he with hA | hB
          · rw [if_pos ht] at hA
            rcases List.mem_cons.mp hA with hfe | hA
            · obtain ⟨rfl, rfl, rfl⟩ := by
                have := Event.frameOut.injEq a b p s.cap.pos (s.frameCount + 1 + k)
                  (pyProgress (s.frameCount + 1 + k) cfg.total.toNat)
                exact (this ▸ congrArg id hfe :
                  a = s.cap.pos ∧ b = s.frameCount + 1 + k ∧
                    p = pyProgress (s.frameCount + 1 + k) cfg.total.toNat)
              rfl
            · split at hA <;> simp at hA
          · rcases List.mem_cons.mp hB with hfe | hB
            · exact absurd hfe (by simp)
            · exact ih cfg _ ht a b p hB
      · replace h2 : s.cap.frames ≤ s.cap.pos := Nat.le_of_not_lt h2
        by_cases h3 : maxFailures ≤ s.fails + 1
        · rw [loopRun_fail_break cfg n s h1 h2 h3] at he; simp at he
        · replace h3 : s.fails + 1 < maxFailures := Nat.lt_of_not_le h3
          rw [loopRun_fail_retry cfg n s h1 h2 h3] at he
          rcases List.mem_cons.mp he with hfe | hB
          · exact absurd hfe (by simp)
          · exact ih cfg _ ht a b p hB

lemma loopRun_fid_lower : ∀ (fuel : Nat) (cfg : Cfg) (s : LoopSt),
    ∀ a b p, Event.frameOut a b p ∈ (loopRun cfg fuel s).1 → s.cap.pos ≤ a := by
  intro fuel
  induction fuel with
  | zero => intro cfg s a b p he; simp [loopRun] at he
  | succ n ih =>
    intro cfg s a b p he
    cases h1 : stopNow cfg.stopAt s.iter with
    | true => rw [loopRun_stop cfg n s h1] at he; simp at he
    | false =>
      by_cases h2 : s.cap.pos < s.cap.frames
      · cases h3 : cfg.consumer s.cap.pos with
        | false => rw [loopRun_except cfg n s h1 h2 h3] at he; simp at he
        | true =>
          obtain ⟨k, kf, rs, -, -, heq⟩ := loopRun_success_shape cfg n s h1 h2 h3
          rw [heq] at he
          rcases List.mem_append.mp he with hA | hB
          · split at hA
            · rcases List.mem_cons.mp hA with hfe | hA
              · have : a = s.cap.pos := by
                  have := hfe
                  simp at this
                  exact this.1
                omega
              · split at hA <;> simp at hA
            · simp at hA
              omega
          · rcases List.mem_cons.mp hB with hfe | hB
            · exact absurd hfe (by simp)
            · have := ih cfg _ a b p hB
              simp only at this
              omega
      · replace h2 : s.cap.frames ≤ s.cap.pos := Nat.le_of_not_lt h2
        by_cases h3 : maxFailures ≤ s.fails + 1
        · rw [loopRun_fail_break cfg n s h1 h2 h3] at he; simp at he
        · replace h3 : s.fails + 1 < maxFailures := Nat.lt_of_not_le h3
          rw [loopRun_fail_retry cfg n s h1 h2 h3] at he
          rcases List.mem_cons.mp he with hfe | hB
          · exact absurd hfe (by simp)
          · have := ih cfg _ a b p hB
            simp only at this
            omega

lemma loopRun_pc_align : ∀ (fuel : Nat) (cfg : Cfg) (s : LoopSt),
    (loopRun cfg fuel s).1.count Event.progressComplete =
      (loopRun cfg fuel s).1.countP isHundred := by
  intro fuel
  induction fuel with
  | zero => intro cfg s; simp [loopRun]
  | succ n ih =>
    intro cfg s
    cases h1 : stopNow cfg.stopAt s.iter with
    | true => rw [loopRun_stop cfg n s h1]; rfl
    | false =>
      by_cases h2 : s.cap.pos < s.cap.frames
      · cases h3 : cfg.consumer s.cap.pos with
        | false => rw [loopRun_except cfg n s h1 h2 h3]; rfl
        | true =>
          obtain ⟨k, kf, rs, -, -, heq⟩ := loopRun_success_shape cfg n s h1 h2 h3
          rw [heq]
          by_cases ht : 0 < cfg.total
          · rw [if_pos ht]
            by_cases hp : 100 ≤ pyProgress (s.frameCount + 1 + k) cfg.total.toNat
            · rw [if_pos hp]
              simp [List.count_append, List.countP_append, List.count_cons,
                List.countP_cons, isHundred, hp, ih cfg]
            · rw [if_neg hp]
              simp [List.count_append, List.countP_append, List.count_cons,
                List.countP_cons, isHundred, hp, ih cfg]
          · rw [if_neg ht]
            simp [List.count_append, List.countP_append, List.count_cons,
              List.countP_cons, isHundred, ih cfg]
      · replace h2 : s.cap.frames ≤ s.cap.pos := Nat.le_of_not_lt h2
        by_cases h3 : maxFailures ≤ s.fails + 1
        · rw [loopRun_fail_break cfg n s h1 h2 h3]
          simp [List.count_cons, List.countP_cons, isHundred]
        · replace h3 : s.fails + 1 < maxFailures := Nat.lt_of_not_le h3
          rw [loopRun_fail_retry cfg n s h1 h2 h3]
          simp [List.count_cons, List.countP_cons, isHundred, ih cfg]

lemma chain'_le_of_monoNat : ∀ l : List Nat, monoNat l = true →
    List.Chain' (fun x y => x ≤ y) l := by
  intro l
  induction l with
  | nil => intro _; exact List.chain'_nil
  | cons a t ih =>
    cases t with
    | nil => intro _; simp
    | cons b t' =>
      intro h
      simp only [monoNat, Bool.and_eq_true, decide_eq_true_eq] at h
      exact List.chain'_cons.mpr ⟨h.1, ih h.2⟩

lemma skipRun_whole : ∀ (fuel : Nat) (r : Frac) (c : Capture), 0 < r.den →
    r.num.toNat / r.den ≤ c.frames - c.pos → c.pos ≤ c.frames →
    r.num.toNat / r.den < fuel →
    skipRun fuel r c =
      (r.num.toNat / r.den,
        ⟨r.num - ((r.num.toNat / r.den : Nat) : Int) * (r.den : Int), r.den⟩,
        ⟨c.frames, c.pos + r.num.toNat / r.den⟩, false) := by
  intro fuel
  induction fuel with
  | zero => intro r c hd hk hp hfuel; exact absurd hfuel (Nat.not_lt_zero _)
  | succ n ih =>
    intro r c hd hk hp hfuel
    by_cases hb : Frac.ble (Frac.ofInt 1) r = true
    · have hnum : (r.den : Int) ≤ r.num := by
        simpa [Frac.ble, Frac.ofInt] using hb
      have hden_le : r.den ≤ r.num.toNat := by omega
      have hk1 : 1 ≤ r.num.toNat / r.den := (Nat.one_le_div_iff hd).mpr hden_le
      have hpos : c.pos < c.frames := by
        have h9 := le_trans hk1 hk
        omega
      have hgrab : c.grab = (true, ⟨c.frames, c.pos + 1⟩) := by simp [Capture.grab, hpos]
      have hnum' : (r.sub (Frac.ofInt 1)).num = r.num - r.den := by
        simp [Frac.sub, Frac.ofInt]
      have hden' : (r.sub (Frac.ofInt 1)).den = r.den := by
        simp [Frac.sub, Frac.ofInt]
      have hsplit : r.num.toNat / r.den = (r.num.toNat - r.den) / r.den + 1 :=
        Nat.div_eq_sub_div hd hden_le
      have hksub : (r.sub (Frac.ofInt 1)).num.toNat / (r.sub (Frac.ofInt 1)).den =
          r.num.toNat / r.den - 1 := by
        rw [hnum', hden']
        have htn : (r.num - (r.den : Int)).toNat = r.num.toNat - r.den := by omega
        rw [htn]
        omega
      have hih := ih (r.sub (Frac.ofInt 1)) ⟨c.frames, c.pos + 1⟩
        (by rw [hden']; exact hd)
        (by rw [hksub]; show r.num.toNat / r.den - 1 ≤ c.frames - (c.pos + 1); omega)
        (by show c.pos + 1 ≤ c.frames; omega)
        (by rw [hksub]; omega)
      simp only [skipRun, hb, if_true, hgrab]
      simp only [hih, hksub, hnum', hden']
      have h10 : (r.num - (r.den : Int)).toNat / r.den = r.num.toNat / r.den - 1 := by
        have htn : (r.num - (r.den : Int)).toNat = r.num.toNat - r.den := by omega
        rw [htn]
        omega
      rw [h10]
      have e1 : r.num.toNat / r.den - 1 + 1 = r.num.toNat / r.den := by omega
      have e3 : c.pos + 1 + (r.num.toNat / r.den - 1) = c.pos + r.num.toNat / r.den := by
        omega
      have e2 : r.num - (r.den : Int) -
          ((r.num.toNat / r.den - 1 : Nat) : Int) * (r.den : Int) =
          r.num - ((r.num.toNat / r.den : Nat) : Int) * (r.den : Int) := by
        rw [Nat.cast_sub hk1]
        push_cast
        ring
      rw [e1, e3, e2]
    · have hnum : r.num < (r.den : Int) := by
        have h := hb
        simp only [Frac.ble, Frac.ofInt, decide_eq_true_eq] at h
        push_neg at h
        simpa using h
      have hk0 : r.num.toNat / r.den = 0 := Nat.div_eq_of_lt (by omega)
      simp only [skipRun, hb, if_false, Bool.false_eq_true]
      rw [hk0]
      simp

lemma skipRun_exhaust : ∀ (fuel : Nat) (r : Frac) (c : Capture), 0 < r.den →
    c.frames - c.pos < r.num.toNat / r.den → c.pos ≤ c.frames →
    c.frames - c.pos < fuel →
    skipRun fuel r c =
      (c.frames - c.pos,
        ⟨r.num - ((c.frames - c.pos : Nat) : Int) * (r.den : Int), r.den⟩,
        ⟨c.frames, c.frames⟩, true) := by
  intro fuel
  induction fuel with
  | zero => intro r c hd hm hp hfuel; exact absurd hfuel (Nat.not_lt_zero _)
  | succ n ih =>
    intro r c hd hm hp hfuel
    have hk1 : 1 ≤ r.num.toNat / r.den := by omega
    have hden_le : r.den ≤ r.num.toNat := (Nat.one_le_div_iff hd).mp hk1
    have hnum : (r.den : Int) ≤ r.num := by omega
    have hb : Frac.ble (Frac.ofInt 1) r = true := by
      simp [Frac.ble, Frac.ofInt]
      omega
    by_cases hpos : c.pos < c.frames
    · have hgrab : c.grab = (true, ⟨c.frames, c.pos + 1⟩) := by simp [Capture.grab, hpos]
      have hnum' : (r.sub (Frac.ofInt 1)).num = r.num - r.den := by
        simp [Frac.sub, Frac.ofInt]
      have hden' : (r.sub (Frac.ofInt 1)).den = r.den := by
        simp [Frac.sub, Frac.ofInt]
      have hsplit : r.num.toNat / r.den = (r.num.toNat - r.den) / r.den + 1 :=
        Nat.div_eq_sub_div hd hden_le
      have h10 : (r.num - (r.den : Int)).toNat / r.den = r.num.toNat / r.den - 1 := by
        have htn : (r.num - (r.den : Int)).toNat = r.num.toNat - r.den := by omega
        rw [htn]
        omega
      have hih := ih (r.sub (Frac.ofInt 1)) ⟨c.frames, c.pos + 1⟩
        (by rw [hden']; exact hd)
        (by rw [hnum', hden', h10]
            show c.frames - (c.pos + 1) < r.num.toNat / r.den - 1
            omega)
        (by show c.pos + 1 ≤ c.frames; omega)
        (by show c.frames - (c.pos + 1) < n; omega)
      simp only [skipRun, hb, if_true, hgrab]
      simp only [hih, hnum', hden']
      have e1 : c.frames - (c.pos + 1) + 1 = c.frames - c.pos := by omega
      have e2 : r.num - (r.den : Int) -
          ((c.frames - (c.pos + 1) : Nat) : Int) * (r.den : Int) =
          r.num - ((c.frames - c.pos : Nat) : Int) * (r.den : Int) := by
        have hc : ((c.frames - c.pos : Nat) : Int) = ((c.frames - (c.pos + 1) : Nat) : Int) + 1 := by
          omega
        rw [hc]
        ring
      rw [e1, e2]
    · have hgrab : c.grab = (false, c) := by simp [Capture.grab, hpos]
      have hm0 : c.frames - c.pos = 0 := by omega
      simp only [skipRun, hb, if_true, hgrab, hm0]
      have hcp : c.pos = c.frames := by omega
      have hcap : c = (⟨c.frames, c.frames⟩ : Capture) := by
        obtain ⟨F, P⟩ := c
        simp only at hcp ⊢
        rw [hcp]
      simp only [Nat.cast_zero, zero_mul, sub_zero]
      rw [← hcap]

lemma tryBackends_found : ∀ (env : BackendId → BackendProbe) (l₁ : List BackendId)
    (b : BackendId) (l₂ : List BackendId),
    (∀ x ∈ l₁, ¬((env x).opens = true ∧ (env x).readOk = true)) →
    (env b).opens = true → (env b).readOk = true →
    tryBackends env (l₁ ++ b :: l₂) =
      (some b, l₁ ++ [b], l₁.filter fun x => (env x).opens) := by
  intro env l₁
  induction l₁ with
  | nil =>
    intro b l₂ hl hop hrd
    simp [tryBackends, hop, hrd]
  | cons x xs ih =>
    intro b l₂ hl hop hrd
    have hx := hl x (by simp)
    have hrec := ih b l₂ (fun y hy => hl y (by simp [hy])) hop hrd
    cases hxo : (env x).opens with
    | true =>
      have hxr : (env x).readOk = false := by
        cases hr : (env x).readOk with
        | true => exact absurd ⟨hxo, hr⟩ hx
        | false => rfl
      simp only [List.cons_append, tryBackends, hxo, if_true, hxr, Bool.false_eq_true,
        if_false, List.filter]
      simp [hxo, hrec]
    | false =>
      simp only [List.cons_append, tryBackends, hxo, Bool.false_eq_true, if_false,
        List.filter]
      simp [hxo, hrec]

lemma tryBackends_none : ∀ (env : BackendId → BackendProbe) (l : List BackendId),
    (∀ x ∈ l, ¬((env x).opens = true ∧ (env x).readOk = true)) →
    tryBackends env l = (none, l, l.filter fun x => (env x).opens) := by
  intro env l
  induction l with
  | nil => intro hl; simp [tryBackends]
  | cons x xs ih =>
    intro hl
    have hx := hl x (by simp)
    have hrec := ih fun y hy => hl y (by simp [hy])
    cases hxo : (env x).opens with
    | true =>
      have hxr : (env x).readOk = false := by
        cases hr : (env x).readOk with
        | true => exact absurd ⟨hxo, hr⟩ hx
        | false => rfl
      simp only [tryBackends, hxo, if_true, hxr, Bool.false_eq_true, if_false,
        List.filter]
      simp [hxo, hrec]
    | false =>
      simp only [tryBackends, hxo, Bool.false_eq_true, if_false, List.filter]
      simp [hxo, hrec]

/-- Claim C3: the spec claims the device index passed as the integer 0 and as
the string "0" classify identically (both Device).  The code diverges:
`_is_live_stream` tests `video_path == 0` only inside the
`isinstance(video_path, str)` branch, where it can never hold, so the
integer 0 falls through to `return False` and is treated as an ordinary
file path, while the string "0" matches `startswith('0')` and is treated
as a live/webcam source.  The check `video_path == 0` visibly intends to
catch the integer index, so this is a defect of the code. -/
theorem c3_device_zero_divergence :
    is_live_stream (SourceId.intId 0) = false ∧
    is_live_stream (SourceId.str "0") = true ∧
    is_live_stream (SourceId.intId 0) ≠ is_live_stream (SourceId.str "0") :=
  ⟨rfl, rfl, fun h => Bool.noConfusion h⟩

/-- Claim C4: the spec claims any string that matches no network-scheme prefix
and is not the device token "0" (e.g. "0video.mp4") classifies as
LocalFile.  The code diverges: `startswith('0')` matches every file name
beginning with the digit 0, so "0video.mp4" is classified as a live
(webcam) source, contradicting the code's own "# Webcam" intent. -/
theorem c4_zero_prefixed_filename_divergence :
    pyStartsWith "0video.mp4" "rtsp://" = false ∧
    pyStartsWith "0video.mp4" "http://" = false ∧
    pyStartsWith "0video.mp4" "https://" = false ∧
    pyStartsWith "0video.mp4" "rtmp://" = false ∧
    "0video.mp4".data ≠ "0".data ∧
    is_live_stream (SourceId.str "0video.mp4") = true :=
  ⟨rfl, rfl, rfl, rfl, of_decide_eq_true rfl, rfl⟩

/-- Claim C9 counterexample: the claim says the session fps falls back to 30
whenever the reported rate is ≤ 0.  At the reported rate -1 (which is
≤ 0) the code keeps -1, because Python `or` only replaces the falsy
value 0. -/
theorem c9_fps_counterexample :
    Frac.ble (Frac.ofInt (-1)) (Frac.ofInt 0) = true ∧
    normFps (Frac.ofInt (-1)) = Frac.ofInt (-1) ∧
    normFps (Frac.ofInt (-1)) ≠ Frac.ofInt 30 :=
  ⟨rfl, rfl, of_decide_eq_true rfl⟩

/-- Claim C9 amended: after successful negotiation the session fps equals the
backend-reported rate except that a reported rate equal to 0 is replaced
by 30 (a negative reported rate is kept unchanged); the total frame
count equals the backend-reported count with the sentinel -1 substituted
whenever the reported count is ≤ 0. -/
theorem c9_fps_total_amended :
    (∀ r : Frac, r.num ≠ 0 → normFps r = r) ∧
    (∀ r : Frac, r.num = 0 → normFps r = Frac.ofInt 30) ∧
    (∀ t : Int, t ≤ 0 → normTotal t = -1) ∧
    (∀ t : Int, 0 < t → normTotal t = t) :=
  ⟨fun r h => by simp [normFps, h],
   fun r h => by simp [normFps, h],
   fun t h => by simp [normTotal, h],
   fun t h => by simp only [normTotal]; rw [if_neg (by omega)]⟩

theorem c9_fps_total_amended_witness :
    ((5 : Int) ≠ 0 ∧ normFps ⟨5, 1⟩ = ⟨5, 1⟩) ∧
    ((0 : Int) = 0 ∧ normFps ⟨0, 2⟩ = Frac.ofInt 30) ∧
    ((-3 : Int) ≤ 0 ∧ normTotal (-3) = -1) ∧
    ((0 : Int) < 7 ∧ normTotal 7 = 7) :=
  ⟨⟨by decide, c9_fps_total_amended.1 ⟨5, 1⟩ (by decide)⟩,
   ⟨rfl, c9_fps_total_amended.2.1 ⟨0, 2⟩ rfl⟩,
   ⟨by decide, c9_fps_total_amended.2.2.1 (-3) (by decide)⟩,
   ⟨by decide, c9_fps_total_amended.2.2.2 7 (by decide)⟩⟩

/-- Claim C7: ASF backend negotiation is ordered and short-circuiting over the
fixed candidate list [FFMPEG, DSHOW, ANY]: the first candidate whose
open-plus-one-frame-read probe succeeds is accepted and no later
candidate is tried; every candidate that opened but failed the probe has
its handle released; and if every candidate fails, one final fallback to
the plain default capture decides between proceeding and failure. -/
theorem c7_backend_negotiation :
    (∀ (env : BackendId → BackendProbe) (l₁ : List BackendId) (b : BackendId)
        (l₂ : List BackendId),
      asfBackends = l₁ ++ b :: l₂ →
      (∀ x ∈ l₁, ¬((env x).opens = true ∧ (env x).readOk = true)) →
      (env b).opens = true → (env b).readOk = true →
      negotiateASF env =
        (.accepted b, l₁ ++ [b], l₁.filter fun x => (env x).opens)) ∧
    (∀ env : BackendId → BackendProbe,
      (∀ x ∈ asfBackends, ¬((env x).opens = true ∧ (env x).readOk = true)) →
      negotiateASF env =
        ((if (env .defaultBackend).opens then NegResult.fallback else NegResult.failed),
          asfBackends, asfBackends.filter fun x => (env x).opens)) := by
  constructor
  · intro env l₁ b l₂ hdec hl hop hrd
    have h := tryBackends_found env l₁ b l₂ hl hop hrd
    rw [negotiateASF, hdec, h]
  · intro env hl
    have h := tryBackends_none env asfBackends hl
    rw [negotiateASF, h]
    by_cases hd : (env .defaultBackend).opens = true
    · simp [hd]
    · have hd' : (env .defaultBackend).opens = false := by
        cases hx : (env .defaultBackend).opens with
        | true => exact absurd hx hd
        | false => rfl
      simp [hd']

lemma runProc_cases (isLive : Bool) (frames : Nat) (rf : Frac) (rt : Int) (sp : Frac)
    (cons : Nat → Bool) (stopAt : Option Nat) (hf : 0 < frames) :
    ∃ (cfg : Cfg) (s0 : LoopSt),
      cfg.isLive = isLive ∧ cfg.speed = Frac.pymax ⟨1, 10⟩ sp ∧ cfg.total = normTotal rt ∧
      cfg.fps = normFps rf ∧ cfg.consumer = cons ∧ cfg.stopAt = stopAt ∧
      s0.cap.frames = frames ∧ s0.cap.pos ≤ 1 ∧ s0.frameCount = 0 ∧ s0.fails = 0 ∧
      s0.iter = 0 ∧
      ((isLive = false ∧ 0 < normTotal rt) → s0.cap.pos = 0) ∧
      ((isLive = false ∧ 0 < normTotal rt) → s0.frameCount = s0.cap.pos) ∧
      (¬(isLive = false ∧ 0 < normTotal rt) → s0.cap.pos = 1) ∧
      runProc isLive true frames rf rt sp cons stopAt =
        (match (loopRun cfg (FUEL frames) s0).2.1 with
        | .broke => ⟨(loopRun cfg (FUEL frames) s0).1 ++ [Event.released, Event.finished],
            .broke, (loopRun cfg (FUEL frames) s0).2.2⟩
        | .stopped => ⟨(loopRun cfg (FUEL frames) s0).1 ++ [Event.released, Event.finished],
            .stopped, (loopRun cfg (FUEL frames) s0).2.2⟩
        | .excepted => ⟨(loopRun cfg (FUEL frames) s0).1 ++ [Event.errorEv .processingError],
            .excepted, (loopRun cfg (FUEL frames) s0).2.2⟩
        | o => ⟨(loopRun cfg (FUEL frames) s0).1, o, (loopRun cfg (FUEL frames) s0).2.2⟩) := by
  refine ⟨⟨isLive, Frac.pymax ⟨1, 10⟩ sp, normTotal rt, normFps rf, cons, stopAt⟩,
    ⟨if ¬isLive ∧ 0 < normTotal rt then ⟨frames, 0⟩ else ⟨frames, 1⟩, 0, 0, Frac.ofInt 0, 0⟩,
    rfl, rfl, rfl, rfl, rfl, rfl, ?_, ?_, rfl, rfl, rfl, ?_, ?_, ?_, ?_⟩
  · show (if ¬isLive ∧ 0 < normTotal rt then (⟨frames, 0⟩ : Capture) else ⟨frames, 1⟩).frames
      = frames
    split <;> rfl
  · show (if ¬isLive ∧ 0 < normTotal rt then (⟨frames, 0⟩ : Capture) else ⟨frames, 1⟩).pos ≤ 1
    split <;> simp
  · intro h
    show (if ¬isLive ∧ 0 < normTotal rt then (⟨frames, 0⟩ : Capture) else ⟨frames, 1⟩).pos = 0
    rw [if_pos (by simp [h.1, h.2])]
  · intro h
    show 0 = (if ¬isLive ∧ 0 < normTotal rt then (⟨frames, 0⟩ : Capture) else ⟨frames, 1⟩).pos
    rw [if_pos (by simp [h.1, h.2])]
  · intro h
    show (if ¬isLive ∧ 0 < normTotal rt then (⟨frames, 0⟩ : Capture) else ⟨frames, 1⟩).pos = 1
    have hcond : ¬(¬isLive = true ∧ 0 < normTotal rt) := by
      intro hcon
      exact h ⟨by cases hlive : isLive <;> simp_all, hcon.2⟩
    rw [if_neg hcond]
  · simp only [runProc, Bool.true_eq_false, if_false]
    rw [capture_read_lt (show (⟨frames, 0⟩ : Capture).pos < (⟨frames, 0⟩ : Capture).frames
      from hf)]
    rfl

/-- Claim C1 counterexample: a run whose frame consumer raises on the first
frame ends through the `except` clause of `VideoProcessor.run`: the trace
is only the processing-error emission and the capture handle is never
released, so the session is not released on every exit path as claimed. -/
theorem c1_release_counterexample :
    (runProc false true 3 (Frac.ofInt 30) 3 (Frac.ofInt 1) (fun _ => false) none).outcome =
      .excepted ∧
    (runProc false true 3 (Frac.ofInt 30) 3 (Frac.ofInt 1) (fun _ => false) none).events =
      [Event.errorEv .processingError] ∧
    Event.released ∉
      (runProc false true 3 (Frac.ofInt 30) 3 (Frac.ofInt 1) (fun _ => false) none).events :=
  ⟨rfl, rfl, of_decide_eq_false rfl⟩

/-- Claim C1 amended: the capture session is released exactly once, immediately
before the final Finished emission, on the normal end-of-stream /
failure-ceiling exit and on the explicit-stop exit; but on an exception
raised while reading or dispatching a frame the handle is not released
(the run ends with only the processing-error emission). -/
theorem c1_release_amended :
    (∀ (isLive : Bool) (frames : Nat) (rf : Frac) (rt : Int) (sp : Frac)
        (cons : Nat → Bool) (stopAt : Option Nat),
      (∀ n, cons n = true) → 0 < frames →
      ∃ pre, (runProc isLive true frames rf rt sp cons stopAt).events =
          pre ++ [Event.released, Event.finished] ∧ Event.released ∉ pre) ∧
    (∀ (isLive openOk : Bool) (frames : Nat) (rf : Frac) (rt : Int) (sp : Frac)
        (cons : Nat → Bool) (stopAt : Option Nat),
      (runProc isLive openOk frames rf rt sp cons stopAt).outcome = .excepted →
      Event.released ∉ (runProc isLive openOk frames rf rt sp cons stopAt).events) := by
  constructor
  · intro isLive frames rf rt sp cons stopAt hcons hf
    obtain ⟨cfg, s0, h1, h2, h3, h4, h5, h6, h7, h8, h9, h10, h11, h12, h13, h14, heq⟩ :=
      runProc_cases isLive frames rf rt sp cons stopAt hf
    have hterm := loopRun_terminates (FUEL frames) cfg s0 (by omega)
      (by omega) (by simp only [FUEL]; omega)
    have hnex := loopRun_not_excepted (FUEL frames) cfg s0 (by rw [h5]; exact hcons)
    rw [heq]
    rcases hterm with hout | hout | hout
    · rw [hout]
      exact ⟨(loopRun cfg (FUEL frames) s0).1, rfl, loopRun_no_release _ _ _⟩
    · rw [hout]
      exact ⟨(loopRun cfg (FUEL frames) s0).1, rfl, loopRun_no_release _ _ _⟩
    · exact absurd hout hnex
  · intro isLive openOk frames rf rt sp cons stopAt hexc
    cases openOk with
    | false => simp [runProc] at hexc
    | true =>
      cases frames with
      | zero =>
        simp [runProc, Capture.read] at hexc
      | succ m =>
        obtain ⟨cfg, s0, h1, h2, h3, h4, h5, h6, h7, h8, h9, h10, h11, h12, h13, h14, heq⟩ :=
          runProc_cases isLive (m + 1) rf rt sp cons stopAt (Nat.succ_pos m)
        rw [heq] at hexc ⊢
        cases hout : (loopRun cfg (FUEL (m + 1)) s0).2.1
        case excepted =>
          intro hmem
          have hmem' : Event.released ∈
              (loopRun cfg (FUEL (m + 1)) s0).1 ++ [Event.errorEv .processingError] := hmem
          rcases List.mem_append.mp hmem' with hmem'' | hmem''
          · exact loopRun_no_release _ _ _ hmem''
          · simp at hmem''
        case broke => rw [hout] at hexc; exact Outcome.noConfusion hexc
        case stopped => rw [hout] at hexc; exact Outcome.noConfusion hexc
        case openFailed => rw [hout] at hexc; exact Outcome.noConfusion hexc
        case noFirstFrame => rw [hout] at hexc; exact Outcome.noConfusion hexc
        case fuelOut => rw [hout] at hexc; exact Outcome.noConfusion hexc

/-- Claim C2 counterexample: a 1-frame file run terminates through the failure
ceiling, emitting the terminal end-of-file Error and then also the
Finished event — both occur in the same run, contradicting the claimed
exactly-one-of-the-two guarantee. -/
theorem c2_terminal_counterexample :
    Event.errorEv .endOfFile ∈
      (runProc false true 1 (Frac.ofInt 30) 1 (Frac.ofInt 1) (fun _ => true) none).events ∧
    Event.finished ∈
      (runProc false true 1 (Frac.ofInt 30) 1 (Frac.ofInt 1) (fun _ => true) none).events ∧
    errCount (runProc false true 1 (Frac.ofInt 30) 1 (Frac.ofInt 1)
      (fun _ => true) none).events = 1 ∧
    (runProc false true 1 (Frac.ofInt 30) 1 (Frac.ofInt 1)
      (fun _ => true) none).events.count Event.finished = 1 :=
  ⟨of_decide_eq_true rfl, of_decide_eq_true rfl, rfl, rfl⟩

/-- Claim C2 amended: a run that opened its source and read its first frame,
whose consumer never raises and which is never stopped, terminates at
the failure ceiling and emits exactly one terminal Error (classified by
source kind) followed by the handle release and exactly one Finished
event — the Error and the Finished both occur in the same run; a run
stopped before its first iteration emits only the release and Finished
(no Error). -/
theorem c2_terminal_amended :
    (∀ (isLive : Bool) (frames : Nat) (rf : Frac) (rt : Int) (sp : Frac)
        (cons : Nat → Bool),
      (∀ n, cons n = true) → 0 < frames →
      ∃ pre, (runProc isLive true frames rf rt sp cons none).events =
          pre ++ [Event.errorEv (if isLive then .lostConnection else .endOfFile),
            Event.released, Event.finished] ∧
        errCount pre = 0 ∧ Event.finished ∉ pre) ∧
    (∀ (isLive : Bool) (frames : Nat) (rf : Frac) (rt : Int) (sp : Frac)
        (cons : Nat → Bool),
      0 < frames →
      (runProc isLive true frames rf rt sp cons (some 0)).events =
        [Event.released, Event.finished]) := by
  constructor
  · intro isLive frames rf rt sp cons hcons hf
    obtain ⟨cfg, s0, h1, h2, h3, h4, h5, h6, h7, h8, h9, h10, h11, h12, h13, h14, heq⟩ :=
      runProc_cases isLive frames rf rt sp cons none hf
    obtain ⟨pre, hpre, herr, hout⟩ := loopRun_broke_shape (FUEL frames) cfg s0 h6
      (by rw [h5]; exact hcons) (by omega) (by omega) (by simp only [FUEL]; omega)
    rw [heq, hout]
    refine ⟨pre, ?_, herr, ?_⟩
    · simp only []
      rw [hpre, h1]
      simp
    · intro hmem
      exact loopRun_no_finished (FUEL frames) cfg s0 (by rw [hpre]; simp [hmem])
  · intro isLive frames rf rt sp cons hf
    obtain ⟨cfg, s0, h1, h2, h3, h4, h5, h6, h7, h8, h9, h10, h11, h12, h13, h14, heq⟩ :=
      runProc_cases isLive frames rf rt sp cons (some 0) hf
    have hfuel : FUEL frames = 31 * frames + 30 + 1 := by simp only [FUEL]
    have hstop : stopNow cfg.stopAt s0.iter = true := by
      rw [h6, h11]
      rfl
    have hloop : loopRun cfg (FUEL frames) s0 = ([], .stopped, s0) := by
      rw [hfuel]
      exact loopRun_stop cfg _ s0 hstop
    rw [heq, hloop]
    rfl

theorem c1_release_amended_witness :
    (∃ pre, (runProc false true 2 (Frac.ofInt 30) 2 (Frac.ofInt 1)
        (fun _ => true) none).events =
        pre ++ [Event.released, Event.finished] ∧ Event.released ∉ pre) ∧
    Event.released ∉ (runProc false true 2 (Frac.ofInt 30) 2 (Frac.ofInt 1)
      (fun _ => false) none).events :=
  ⟨c1_release_amended.1 false 2 (Frac.ofInt 30) 2 (Frac.ofInt 1) (fun _ => true) none
      (fun _ => rfl) (by decide),
   c1_release_amended.2 false true 2 (Frac.ofInt 30) 2 (Frac.ofInt 1) (fun _ => false) none
      rfl⟩

theorem c2_terminal_amended_witness :
    (∃ pre, (runProc true true 2 (Frac.ofInt 30) 0 (Frac.ofInt 1)
        (fun _ => true) none).events =
        pre ++ [Event.errorEv (if true then ErrMsg.lostConnection else ErrMsg.endOfFile),
          Event.released, Event.finished] ∧
      errCount pre = 0 ∧ Event.finished ∉ pre) ∧
    (runProc false true 3 (Frac.ofInt 30) 3 (Frac.ofInt 1) (fun _ => true) (some 0)).events =
      [Event.released, Event.finished] :=
  ⟨c2_terminal_amended.1 true 2 (Frac.ofInt 30) 0 (Frac.ofInt 1) (fun _ => true)
      (fun _ => rfl) (by decide),
   c2_terminal_amended.2 false 3 (Frac.ofInt 30) 3 (Frac.ofInt 1) (fun _ => true)
      (by decide)⟩

theorem c7_backend_negotiation_witness :
    negotiateASF (fun b => match b with
      | .ffmpeg => ⟨true, false⟩
      | .dshow => ⟨false, false⟩
      | .anyBackend => ⟨true, true⟩
      | .defaultBackend => ⟨true, true⟩) =
      (.accepted .anyBackend, [.ffmpeg, .dshow, .anyBackend], [.ffmpeg]) ∧
    negotiateASF (fun _ => ⟨false, false⟩) =
      (.failed, [.ffmpeg, .dshow, .anyBackend], []) :=
  ⟨c7_backend_negotiation.1 (fun b => match b with
      | .ffmpeg => ⟨true, false⟩
      | .dshow => ⟨false, false⟩
      | .anyBackend => ⟨true, true⟩
      | .defaultBackend => ⟨true, true⟩)
      [.ffmpeg, .dshow] .anyBackend [] rfl (of_decide_eq_true rfl) rfl rfl,
   c7_backend_negotiation.2 (fun _ => ⟨false, false⟩) (of_decide_eq_true rfl)⟩

/-- Claim C5 counterexample: the claim's floor formula and its
exactly-one-ProgressComplete guarantee are both false of the program.
At frame 29 of a 100-frame file the IEEE-double computation
`int((29 / 100) * 100)` yields 28 where the claimed exact floor gives 29.
And the ProgressComplete count depends on the backend-reported total
rather than being exactly one: with 5 decodable frames but a reported
total of 2 the progress values run 50, 100, 150, 200, 250 and
ProgressComplete fires four times; with 3 decodable frames but a
reported total of 100 it never fires. -/
theorem c5_progress_counterexample :
    Event.frameOut 28 29 28 ∈
      (runProc false true 100 (Frac.ofInt 30) 100 (Frac.ofInt 1)
        (fun _ => true) none).events ∧
    29 * 100 / 100 = 29 ∧ (28 : Nat) ≠ 29 ∧
    (runProc false true 5 (Frac.ofInt 30) 2 (Frac.ofInt 1)
      (fun _ => true) none).events.count Event.progressComplete = 4 ∧
    (runProc false true 3 (Frac.ofInt 30) 100 (Frac.ofInt 1)
      (fun _ => true) none).events.count Event.progressComplete = 0 :=
  ⟨of_decide_eq_true rfl, rfl, by decide, rfl, rfl⟩

set_option maxRecDepth 40000 in
/-- Claim C5 amended: whenever the backend-reported total is positive,
every delivered frame carries the progress value
`int((frame_count / total_frames) * 100)` computed in IEEE binary64
arithmetic (which can fall below the exact floor, e.g. 28 at frame 29 of
100); a ProgressComplete emission accompanies exactly those frame events
whose progress value is at least 100, in every run; and for a well-formed
100-frame file whose reported total matches, at speed 1.0, the progress
values are non-decreasing, reach 100 exactly once, and exactly one
ProgressComplete is emitted. -/
theorem c5_progress_amended :
    (∀ (isLive : Bool) (frames : Nat) (rf : Frac) (rt : Int) (sp : Frac)
        (cons : Nat → Bool) (stopAt : Option Nat),
      0 < frames → 0 < rt →
      ∀ a b p, Event.frameOut a b p ∈
        (runProc isLive true frames rf rt sp cons stopAt).events →
        p = pyProgress b rt.toNat) ∧
    (∀ (isLive openOk : Bool) (frames : Nat) (rf : Frac) (rt : Int) (sp : Frac)
        (cons : Nat → Bool) (stopAt : Option Nat),
      (runProc isLive openOk frames rf rt sp cons stopAt).events.count
          Event.progressComplete =
        (runProc isLive openOk frames rf rt sp cons stopAt).events.countP isHundred) ∧
    List.Chain' (fun x y => x ≤ y)
      (progVals (runProc false true 100 (Frac.ofInt 30) 100 (Frac.ofInt 1)
        (fun _ => true) none).events) ∧
    (progVals (runProc false true 100 (Frac.ofInt 30) 100 (Frac.ofInt 1)
      (fun _ => true) none).events).count 100 = 1 ∧
    (runProc false true 100 (Frac.ofInt 30) 100 (Frac.ofInt 1)
      (fun _ => true) none).events.count Event.progressComplete = 1 := by
  refine ⟨?_, ?_, ?_, ?_, ?_⟩
  · intro isLive frames rf rt sp cons stopAt hf hrt a b p hmem
    obtain ⟨cfg, s0, h1, h2, h3, h4, h5, h6, h7, h8, h9, h10, h11, h12, h13, h14, heq⟩ :=
      runProc_cases isLive frames rf rt sp cons stopAt hf
    have hnt : normTotal rt = rt := by rw [normTotal, if_neg (by omega)]
    have ht : 0 < cfg.total := by rw [h3, hnt]; exact hrt
    have htn : cfg.total.toNat = rt.toNat := by rw [h3, hnt]
    rw [heq] at hmem
    have hmem' : Event.frameOut a b p ∈ (loopRun cfg (FUEL frames) s0).1 := by
      cases hout : (loopRun cfg (FUEL frames) s0).2.1 <;> rw [hout] at hmem <;>
        [skip; skip; skip; skip; skip; skip] <;>
        first
        | (rcases List.mem_append.mp hmem with hx | hx
           · exact hx
           · simp at hx)
        | exact hmem
    have hp := loopRun_progress_formula (FUEL frames) cfg s0 ht a b p hmem'
    rw [htn] at hp
    exact hp
  · intro isLive openOk frames rf rt sp cons stopAt
    cases openOk with
    | false => rfl
    | true =>
      cases frames with
      | zero => rfl
      | succ m =>
        obtain ⟨cfg, s0, h1, h2, h3, h4, h5, h6, h7, h8, h9, h10, h11, h12, h13, h14, heq⟩ :=
          runProc_cases isLive (m + 1) rf rt sp cons stopAt (Nat.succ_pos m)
        rw [heq]
        have halign := loopRun_pc_align (FUEL (m + 1)) cfg s0
        cases hout : (loopRun cfg (FUEL (m + 1)) s0).2.1 <;>
          simp [List.count_append, List.countP_append, List.count_cons, List.countP_cons,
            isHundred, halign]
  · exact chain'_le_of_monoNat _ rfl
  · rfl
  · rfl

theorem c5_progress_amended_witness :
    (0 < 2 ∧ (0 : Int) < 2 ∧
      ∀ a b p, Event.frameOut a b p ∈
        (runProc false true 2 (Frac.ofInt 30) 2 (Frac.ofInt 1)
          (fun _ => true) none).events → p = pyProgress b (2 : Int).toNat) ∧
    (runProc true true 2 (Frac.ofInt 30) 0 (Frac.ofInt 1)
        (fun _ => true) (some 3)).events.count Event.progressComplete =
      (runProc true true 2 (Frac.ofInt 30) 0 (Frac.ofInt 1)
        (fun _ => true) (some 3)).events.countP isHundred :=
  ⟨⟨by decide, by decide,
    c5_progress_amended.1 false 2 (Frac.ofInt 30) 2 (Frac.ofInt 1) (fun _ => true) none
      (by decide) (by decide)⟩,
   c5_progress_amended.2.1 true true 2 (Frac.ofInt 30) 0 (Frac.ofInt 1) (fun _ => true)
     (some 3)⟩

/-- Claim C6: on a read failure the worker increments consecutive_failures
without advancing frame_count, sleeps ~100ms and retries; at the fixed
ceiling of 30 it emits one terminal error classified by source kind and
exits the loop; a successful read resets consecutive_failures to 0.  A
file source exhausted after 5 frames ends with exactly 30 consecutive
failures, frame_count frozen at 5 and one end-of-file error; a live
source exhausted after frame 5 ends the same way with the
lost-connection classification. -/
theorem c6_failure_ceiling :
    ((runProc false true 5 (Frac.ofInt 30) 5 (Frac.ofInt 1)
        (fun _ => true) none).final.fails = 30 ∧
      (runProc false true 5 (Frac.ofInt 30) 5 (Frac.ofInt 1)
        (fun _ => true) none).final.frameCount = 5 ∧
      errCount (runProc false true 5 (Frac.ofInt 30) 5 (Frac.ofInt 1)
        (fun _ => true) none).events = 1 ∧
      Event.errorEv .endOfFile ∈ (runProc false true 5 (Frac.ofInt 30) 5 (Frac.ofInt 1)
        (fun _ => true) none).events) ∧
    ((runProc true true 6 (Frac.ofInt 30) 0 (Frac.ofInt 1)
        (fun _ => true) none).final.fails = 30 ∧
      (runProc true true 6 (Frac.ofInt 30) 0 (Frac.ofInt 1)
        (fun _ => true) none).final.frameCount = 5 ∧
      errCount (runProc true true 6 (Frac.ofInt 30) 0 (Frac.ofInt 1)
        (fun _ => true) none).events = 1 ∧
      Event.errorEv .lostConnection ∈ (runProc true true 6 (Frac.ofInt 30) 0 (Frac.ofInt 1)
        (fun _ => true) none).events) ∧
    (∀ (cfg : Cfg) (fuel : Nat) (s : LoopSt),
      stopNow cfg.stopAt s.iter = false → s.cap.frames ≤ s.cap.pos →
      s.fails + 1 < maxFailures →
      loopRun cfg (fuel + 1) s =
        (Event.backoff 100 ::
            (loopRun cfg fuel { s with fails := s.fails + 1, iter := s.iter + 1 }).1,
          (loopRun cfg fuel { s with fails := s.fails + 1, iter := s.iter + 1 }).2)) ∧
    (∀ (cfg : Cfg) (fuel : Nat) (s : LoopSt),
      stopNow cfg.stopAt s.iter = false → s.cap.frames ≤ s.cap.pos →
      maxFailures ≤ s.fails + 1 →
      loopRun cfg (fuel + 1) s =
        ([Event.errorEv (if cfg.isLive then .lostConnection else .endOfFile)],
          .broke, { s with fails := s.fails + 1 })) ∧
    (∀ (cfg : Cfg) (fuel : Nat) (s : LoopSt),
      stopNow cfg.stopAt s.iter = false → s.cap.pos < s.cap.frames →
      cfg.consumer s.cap.pos = true →
      ¬(¬cfg.isLive = true ∧ Frac.blt (Frac.ofInt 1) cfg.speed = true) →
      ∃ evs, loopRun cfg (fuel + 1) s =
        (evs ++ (loopRun cfg fuel
            ⟨⟨s.cap.frames, s.cap.pos + 1⟩, s.frameCount + 1, 0, s.residual, s.iter + 1⟩).1,
          (loopRun cfg fuel
            ⟨⟨s.cap.frames, s.cap.pos + 1⟩, s.frameCount + 1, 0, s.residual, s.iter + 1⟩).2)) := by
  refine ⟨⟨rfl, rfl, rfl, of_decide_eq_true rfl⟩,
    ⟨rfl, rfl, rfl, of_decide_eq_true rfl⟩, ?_, ?_, ?_⟩
  · intro cfg fuel s h1 h2 h3
    exact loopRun_fail_retry cfg fuel s h1 h2 h3
  · intro cfg fuel s h1 h2 h3
    exact loopRun_fail_break cfg fuel s h1 h2 h3
  · intro cfg fuel s h1 h2 h3 hsk
    have hstep := loopRun_success cfg fuel s h1 h2 h3
    refine ⟨(if 0 < cfg.total then
        Event.frameOut s.cap.pos (s.frameCount + 1)
            (pyProgress (s.frameCount + 1) cfg.total.toNat) ::
          (if 100 ≤ pyProgress (s.frameCount + 1) cfg.total.toNat then
            [Event.progressComplete] else [])
      else [Event.frameOut s.cap.pos (s.frameCount + 1) 50]) ++
      [Event.paceSleep (stepSleepMs cfg.isLive cfg.speed cfg.fps)], ?_⟩
    rw [hstep]
    simp only [if_neg hsk]
    simp [List.append_assoc]

/-- Claim C10: for every non-live source whose backend reports a nonpositive
total frame count, the worker reads one frame before the loop to obtain
dimensions but does not rewind (the rewind happens only when the
reported total is positive), so the source's first frame (frame id 0) is
consumed during setup and never dispatched to the frame consumer; with a
positive reported total the rewind makes frame 0 the first dispatched
frame. -/
theorem c10_first_frame_lost :
    (∀ (frames : Nat) (rf : Frac) (rt : Int) (sp : Frac) (cons : Nat → Bool)
        (stopAt : Option Nat),
      0 < frames → rt ≤ 0 →
      ∀ a b p, Event.frameOut a b p ∈
        (runProc false true frames rf rt sp cons stopAt).events → 1 ≤ a) ∧
    (∀ (frames : Nat) (rf : Frac) (rt : Int) (sp : Frac) (cons : Nat → Bool),
      0 < frames → 0 < rt → cons 0 = true →
      ∃ b p, Event.frameOut 0 b p ∈
        (runProc false true frames rf rt sp cons none).events) := by
  constructor
  · intro frames rf rt sp cons stopAt hf hrt a b p hmem
    obtain ⟨cfg, s0, h1, h2, h3, h4, h5, h6, h7, h8, h9, h10, h11, h12, h13, h14, heq⟩ :=
      runProc_cases false frames rf rt sp cons stopAt hf
    have hnt : normTotal rt = -1 := by rw [normTotal, if_pos hrt]
    have hpos1 : s0.cap.pos = 1 := h14 (by rw [hnt]; intro hcon; omega)
    have hlow := loopRun_fid_lower (FUEL frames) cfg s0 a b p
    rw [heq] at hmem
    have hmem' : Event.frameOut a b p ∈ (loopRun cfg (FUEL frames) s0).1 := by
      cases hout : (loopRun cfg (FUEL frames) s0).2.1 <;> rw [hout] at hmem <;>
        [skip; skip; skip; skip; skip; skip] <;>
        first
        | (rcases List.mem_append.mp hmem with hx | hx
           · exact hx
           · simp at hx)
        | exact hmem
    have := hlow hmem'
    omega
  · intro frames rf rt sp cons hf hrt hc0
    obtain ⟨cfg, s0, h1, h2, h3, h4, h5, h6, h7, h8, h9, h10, h11, h12, h13, h14, heq⟩ :=
      runProc_cases false frames rf rt sp cons none hf
    have hnt : normTotal rt = rt := by rw [normTotal, if_neg (by omega)]
    have hpos0 : s0.cap.pos = 0 := h12 ⟨rfl, by rw [hnt]; exact hrt⟩
    have ht : 0 < cfg.total := by rw [h3, hnt]; exact hrt
    have hstop : stopNow cfg.stopAt s0.iter = false := by rw [h6]; rfl
    have hread : s0.cap.pos < s0.cap.frames := by omega
    have hcons : cfg.consumer s0.cap.pos = true := by rw [h5, hpos0]; exact hc0
    obtain ⟨k, kf, rs, hkf, hple, hloopeq⟩ :=
      loopRun_success_shape cfg (31 * frames + 30) s0 hstop hread hcons
    have hfuel : FUEL frames = 31 * frames + 30 + 1 := by simp only [FUEL]
    have hmem : Event.frameOut s0.cap.pos (s0.frameCount + 1 + k)
        (pyProgress (s0.frameCount + 1 + k) cfg.total.toNat) ∈
        (loopRun cfg (FUEL frames) s0).1 := by
      rw [hfuel, hloopeq, if_pos ht]
      simp
    rw [hpos0] at hmem
    refine ⟨s0.frameCount + 1 + k, pyProgress (s0.frameCount + 1 + k) cfg.total.toNat, ?_⟩
    rw [heq]
    cases hout : (loopRun cfg (FUEL frames) s0).2.1 <;> simp only [] <;>
      first
      | exact List.mem_append.mpr (Or.inl hmem)
      | exact hmem

set_option maxRecDepth 40000 in
/-- Claim C8: with speedMultiplier 2.0 on a 100-frame file, the consumer is
dispatched exactly 50 frames (strictly fewer than 100) while frame_count
after completion equals 100.  In general each successful iteration adds
speed − 1 to the skip residual and the inner grab loop performs exactly
⌊residual⌋ grab-only skips when enough frames remain (residual keeps its
fractional part), while a failed grab stops skipping with the stream
exhausted and counts as one consecutive failure; frame_count advances by
1 + skippedCount. -/
theorem c8_speed_skip :
    ((runProc false true 100 (Frac.ofInt 30) 100 (Frac.ofInt 2)
        (fun _ => true) none).events.countP isFrameOut = 50 ∧
      (50 : Nat) < 100 ∧
      (runProc false true 100 (Frac.ofInt 30) 100 (Frac.ofInt 2)
        (fun _ => true) none).final.frameCount = 100) ∧
    (∀ (fuel : Nat) (r : Frac) (c : Capture), 0 < r.den →
      r.num.toNat / r.den ≤ c.frames - c.pos → c.pos ≤ c.frames →
      r.num.toNat / r.den < fuel →
      skipRun fuel r c =
        (r.num.toNat / r.den,
          ⟨r.num - ((r.num.toNat / r.den : Nat) : Int) * (r.den : Int), r.den⟩,
          ⟨c.frames, c.pos + r.num.toNat / r.den⟩, false)) ∧
    (∀ (fuel : Nat) (r : Frac) (c : Capture), 0 < r.den →
      c.frames - c.pos < r.num.toNat / r.den → c.pos ≤ c.frames →
      c.frames - c.pos < fuel →
      skipRun fuel r c =
        (c.frames - c.pos,
          ⟨r.num - ((c.frames - c.pos : Nat) : Int) * (r.den : Int), r.den⟩,
          ⟨c.frames, c.frames⟩, true)) ∧
    (∀ (cfg : Cfg) (fuel : Nat) (s : LoopSt),
      stopNow cfg.stopAt s.iter = false → s.cap.pos < s.cap.frames →
      cfg.consumer s.cap.pos = true →
      cfg.isLive = false → Frac.blt (Frac.ofInt 1) cfg.speed = true →
      ∃ evs, loopRun cfg (fuel + 1) s =
        (evs ++ (loopRun cfg fuel
            ⟨(skipRun (s.cap.frames + 1) (s.residual.add (cfg.speed.sub (Frac.ofInt 1)))
                ⟨s.cap.frames, s.cap.pos + 1⟩).2.2.1,
              s.frameCount + 1 +
                (skipRun (s.cap.frames + 1) (s.residual.add (cfg.speed.sub (Frac.ofInt 1)))
                  ⟨s.cap.frames, s.cap.pos + 1⟩).1,
              if (skipRun (s.cap.frames + 1) (s.residual.add (cfg.speed.sub (Frac.ofInt 1)))
                  ⟨s.cap.frames, s.cap.pos + 1⟩).2.2.2 then 1 else 0,
              (skipRun (s.cap.frames + 1) (s.residual.add (cfg.speed.sub (Frac.ofInt 1)))
                ⟨s.cap.frames, s.cap.pos + 1⟩).2.1,
              s.iter + 1⟩).1,
          (loopRun cfg fuel
            ⟨(skipRun (s.cap.frames + 1) (s.residual.add (cfg.speed.sub (Frac.ofInt 1)))
                ⟨s.cap.frames, s.cap.pos + 1⟩).2.2.1,
              s.frameCount + 1 +
                (skipRun (s.cap.frames + 1) (s.residual.add (cfg.speed.sub (Frac.ofInt 1)))
                  ⟨s.cap.frames, s.cap.pos + 1⟩).1,
              if (skipRun (s.cap.frames + 1) (s.residual.add (cfg.speed.sub (Frac.ofInt 1)))
                  ⟨s.cap.frames, s.cap.pos + 1⟩).2.2.2 then 1 else 0,
              (skipRun (s.cap.frames + 1) (s.residual.add (cfg.speed.sub (Frac.ofInt 1)))
                ⟨s.cap.frames, s.cap.pos + 1⟩).2.1,
              s.iter + 1⟩).2)) := by
  refine ⟨⟨rfl, by omega, rfl⟩, skipRun_whole, skipRun_exhaust, ?_⟩
  intro cfg fuel s h1 h2 h3 hlive hsp
  have hstep := loopRun_success cfg fuel s h1 h2 h3
  refine ⟨(if 0 < cfg.total then
      Event.frameOut s.cap.pos
          (s.frameCount + 1 +
            (skipRun (s.cap.frames + 1) (s.residual.add (cfg.speed.sub (Frac.ofInt 1)))
              ⟨s.cap.frames, s.cap.pos + 1⟩).1)
          (pyProgress (s.frameCount + 1 +
            (skipRun (s.cap.frames + 1) (s.residual.add (cfg.speed.sub (Frac.ofInt 1)))
              ⟨s.cap.frames, s.cap.pos + 1⟩).1) cfg.total.toNat) ::
        (if 100 ≤ pyProgress (s.frameCount + 1 +
            (skipRun (s.cap.frames + 1) (s.residual.add (cfg.speed.sub (Frac.ofInt 1)))
              ⟨s.cap.frames, s.cap.pos + 1⟩).1) cfg.total.toNat then
          [Event.progressComplete] else [])
    else [Event.frameOut s.cap.pos
      (s.frameCount + 1 +
        (skipRun (s.cap.frames + 1) (s.residual.add (cfg.speed.sub (Frac.ofInt 1)))
          ⟨s.cap.frames, s.cap.pos + 1⟩).1) 50]) ++
    [Event.paceSleep (stepSleepMs cfg.isLive cfg.speed cfg.fps)], ?_⟩
  rw [hstep]
  simp only [if_pos (show ¬cfg.isLive = true ∧ Frac.blt (Frac.ofInt 1) cfg.speed = true from
    ⟨by rw [hlive]; simp, hsp⟩)]

theorem c8_speed_skip_witness :
    ((runProc false true 100 (Frac.ofInt 30) 100 (Frac.ofInt 2)
        (fun _ => true) none).events.countP isFrameOut = 50 ∧
      (50 : Nat) < 100 ∧
      (runProc false true 100 (Frac.ofInt 30) 100 (Frac.ofInt 2)
        (fun _ => true) none).final.frameCount = 100) ∧
    skipRun 6 ⟨5, 2⟩ ⟨8, 3⟩ = (2, ⟨1, 2⟩, ⟨8, 5⟩, false) ∧
    skipRun 6 ⟨9, 1⟩ ⟨5, 3⟩ = (2, ⟨7, 1⟩, ⟨5, 5⟩, true) ∧
    (∃ evs, loopRun ⟨false, Frac.ofInt 2, 5, Frac.ofInt 30, fun _ => true, none⟩ 3
        ⟨⟨3, 0⟩, 0, 0, Frac.ofInt 0, 0⟩ =
      (evs ++ (loopRun ⟨false, Frac.ofInt 2, 5, Frac.ofInt 30, fun _ => true, none⟩ 2
          ⟨(skipRun 4 ((Frac.ofInt 0).add ((Frac.ofInt 2).sub (Frac.ofInt 1))) ⟨3, 1⟩).2.2.1,
            0 + 1 + (skipRun 4 ((Frac.ofInt 0).add ((Frac.ofInt 2).sub (Frac.ofInt 1)))
              ⟨3, 1⟩).1,
            if (skipRun 4 ((Frac.ofInt 0).add ((Frac.ofInt 2).sub (Frac.ofInt 1)))
              ⟨3, 1⟩).2.2.2 then 1 else 0,
            (skipRun 4 ((Frac.ofInt 0).add ((Frac.ofInt 2).sub (Frac.ofInt 1))) ⟨3, 1⟩).2.1,
            0 + 1⟩).1,
        (loopRun ⟨false, Frac.ofInt 2, 5, Frac.ofInt 30, fun _ => true, none⟩ 2
          ⟨(skipRun 4 ((Frac.ofInt 0).add ((Frac.ofInt 2).sub (Frac.ofInt 1))) ⟨3, 1⟩).2.2.1,
            0 + 1 + (skipRun 4 ((Frac.ofInt 0).add ((Frac.ofInt 2).sub (Frac.ofInt 1)))
              ⟨3, 1⟩).1,
            if (skipRun 4 ((Frac.ofInt 0).add ((Frac.ofInt 2).sub (Frac.ofInt 1)))
              ⟨3, 1⟩).2.2.2 then 1 else 0,
            (skipRun 4 ((Frac.ofInt 0).add ((Frac.ofInt 2).sub (Frac.ofInt 1))) ⟨3, 1⟩).2.1,
            0 + 1⟩).2)) :=
  ⟨c8_speed_skip.1,
   c8_speed_skip.2.1 6 ⟨5, 2⟩ ⟨8, 3⟩ (of_decide_eq_true rfl) (of_decide_eq_true rfl)
     (of_decide_eq_true rfl) (of_decide_eq_true rfl),
   c8_speed_skip.2.2.1 6 ⟨9, 1⟩ ⟨5, 3⟩ (of_decide_eq_true rfl) (of_decide_eq_true rfl)
     (of_decide_eq_true rfl) (of_decide_eq_true rfl),
   c8_speed_skip.2.2.2 ⟨false, Frac.ofInt 2, 5, Frac.ofInt 30, fun _ => true, none⟩ 2
     ⟨⟨3, 0⟩, 0, 0, Frac.ofInt 0, 0⟩ rfl (of_decide_eq_true rfl) rfl rfl
     (of_decide_eq_true rfl)⟩

theorem c6_failure_ceiling_witness :
    (loopRun ⟨true, Frac.ofInt 1, -1, Frac.ofInt 30, fun _ => true, none⟩ 3
        ⟨⟨2, 2⟩, 2, 0, Frac.ofInt 0, 4⟩ =
      (Event.backoff 100 ::
          (loopRun ⟨true, Frac.ofInt 1, -1, Frac.ofInt 30, fun _ => true, none⟩ 2
            ⟨⟨2, 2⟩, 2, 1, Frac.ofInt 0, 5⟩).1,
        (loopRun ⟨true, Frac.ofInt 1, -1, Frac.ofInt 30, fun _ => true, none⟩ 2
          ⟨⟨2, 2⟩, 2, 1, Frac.ofInt 0, 5⟩).2)) ∧
    (loopRun ⟨false, Frac.ofInt 1, -1, Frac.ofInt 30, fun _ => true, none⟩ 3
        ⟨⟨2, 2⟩, 2, 29, Frac.ofInt 0, 4⟩ =
      ([Event.errorEv .endOfFile], .broke, ⟨⟨2, 2⟩, 2, 30, Frac.ofInt 0, 4⟩)) ∧
    (∃ evs, loopRun ⟨false, Frac.ofInt 1, 9, Frac.ofInt 30, fun _ => true, none⟩ 3
        ⟨⟨2, 0⟩, 0, 7, Frac.ofInt 0, 0⟩ =
      (evs ++ (loopRun ⟨false, Frac.ofInt 1, 9, Frac.ofInt 30, fun _ => true, none⟩ 2
          ⟨⟨2, 1⟩, 1, 0, Frac.ofInt 0, 1⟩).1,
        (loopRun ⟨false, Frac.ofInt 1, 9, Frac.ofInt 30, fun _ => true, none⟩ 2
          ⟨⟨2, 1⟩, 1, 0, Frac.ofInt 0, 1⟩).2)) :=
  ⟨c6_failure_ceiling.2.2.1 ⟨true, Frac.ofInt 1, -1, Frac.ofInt 30, fun _ => true, none⟩ 2
      ⟨⟨2, 2⟩, 2, 0, Frac.ofInt 0, 4⟩ rfl (of_decide_eq_true rfl) (of_decide_eq_true rfl),
   c6_failure_ceiling.2.2.2.1 ⟨false, Frac.ofInt 1, -1, Frac.ofInt 30, fun _ => true, none⟩ 2
      ⟨⟨2, 2⟩, 2, 29, Frac.ofInt 0, 4⟩ rfl (of_decide_eq_true rfl) (of_decide_eq_true rfl),
   c6_failure_ceiling.2.2.2.2 ⟨false, Frac.ofInt 1, 9, Frac.ofInt 30, fun _ => true, none⟩ 2
      ⟨⟨2, 0⟩, 0, 7, Frac.ofInt 0, 0⟩ rfl (of_decide_eq_true rfl) rfl
      (by intro hcon; simp [Frac.blt, Frac.ofInt] at hcon)⟩

theorem c10_first_frame_lost_witness :
    (0 < 3 ∧ (-2 : Int) ≤ 0 ∧
      (∀ a b p, Event.frameOut a b p ∈
        (runProc false true 3 (Frac.ofInt 30) (-2) (Frac.ofInt 1)
          (fun _ => true) none).events → 1 ≤ a)) ∧
    (∃ b p, Event.frameOut 0 b p ∈
      (runProc false true 3 (Frac.ofInt 30) 3 (Frac.ofInt 1) (fun _ => true) none).events) :=
  ⟨⟨by decide, by decide,
    c10_first_frame_lost.1 3 (Frac.ofInt 30) (-2) (Frac.ofInt 1) (fun _ => true) none
      (by decide) (by decide)⟩,
   c10_first_frame_lost.2 3 (Frac.ofInt 30) 3 (Frac.ofInt 1) (fun _ => true)
      (by decide) (by decide) rfl⟩
